import Mathlib

/-!
# Verification of the bsquare-corp modbus-sphere-library protocol engine

Shallow embedding of the A7 Modbus protocol engine
(`ModbusOnSphereA7/modbus.c`), the slave simulator's CRC16 and file-request
handling (`SlaveSimulator/modbuscommands.c`), and the shared constants
(`modbusCommon.h`).  Machine bytes are modelled as `Nat` values below 256,
16-bit counters as `Nat` values below 65536; arithmetic that truncates in C
carries an explicit `% 256` / `% 65536`.  Buffers are `List Nat`; the C
accumulation array is zero-initialised at connect, so reads beyond the
current fill length are modelled with default value 0 (`List.getD`),
matching a freshly connected handle.
-/

/-! ## Constants from modbusCommon.h and modbus.c -/

def MAX_PDU_LENGTH : Nat := 254
def PDU_HEADER_LENGTH : Nat := 3
def CRC_FOOTER_LENGTH : Nat := 2
def ERROR_CODE_LENGTH : Nat := 3
def FCODE_RANGE : Nat := 32
def FCODE_ERROR_OFFSET : Nat := 128
def MESSAGE_HEADER_LENGTH : Nat := 4
def TCP_HEADER_LENGTH : Nat := 6
def MODBUS_EXCEPTION_BIT : Nat := 0x80
def UART_CFG_MESSAGE_RESP_LENGTH : Nat := 1

/- Function codes -/
def READ_COILS : Nat := 1
def READ_DISCRETE_INPUTS : Nat := 2
def READ_MULTIPLE_HOLDING_REGISTERS : Nat := 3
def READ_INPUT_REGISTERS : Nat := 4
def WRITE_SINGLE_COIL : Nat := 5
def WRITE_SINGLE_HOLDING_REGISTER : Nat := 6
def READ_EXCEPTION_STATUS : Nat := 7
def WRITE_MULTIPLE_COILS : Nat := 15
def WRITE_MULTIPLE_HOLDING_REGISTERS : Nat := 16
def READ_FILE : Nat := 20
def WRITE_FILE : Nat := 21

/- Exception / error codes -/
def ILLEGAL_FUNCTION : Nat := 1
def ILLEGAL_DATA_ADDRESS : Nat := 2
def ILLEGAL_DATA_VALUE : Nat := 3
def MODBUS_TIMEOUT : Nat := 20
def MESSAGE_SEND_FAIL : Nat := 21
def HANDLE_IN_USE : Nat := 22
def INVALID_RESPONSE : Nat := 23

/-- Modelled from the spec: `DEVICE_DISCONNECTED` is referenced by
`modbus.c` but its numeric definition is not among the provided sources
(the provided `modbusCommon.h` stops at `INVALID_RESPONSE 23`).  Following
the implementation-specific code sequence 20..23 it is modelled as 24; no
claim depends on the exact value, only on it being distinct from
`HANDLE_IN_USE`. -/
def DEVICE_DISCONNECTED : Nat := 24

/- Intercore message header values (modbusCommon.h enums) -/
def UART_PROTOCOL : Nat := 1
def MODBUS_PROTOCOL : Nat := 2
def UART_CFG_MESSAGE : Nat := 1
def MODBUS_DATA_MESSAGE : Nat := 1

/-! ## Data model (struct _modbus_t of modbus.c) -/

/-- `modbusTransportType_t` -/
inductive ModbusTransportType
  | tcp
  | rtuOverTcp
  | rtu
deriving DecidableEq, Repr

/-- `messageHandlerState_t` -/
inductive MessageHandlerState
  | success
  | failure
  | waiting
deriving DecidableEq, Repr

/-- `MODBUS_STATE` -/
inductive MODBUS_STATE
  | Idle
  | SendingRequest
  | WaitingForResponse
  | DataReceived
  | TransactionFailed
  | Disconnected
deriving DecidableEq, Repr

/-- The protocol-relevant fields of `struct _modbus_t`.  The file
descriptor and connection parameters play no part in the verified logic
and are omitted; `bufferedMessage` is the valid prefix of the C
accumulation array (its length is the C field `bufferedMessageLength`). -/
structure Modbus where
  type : ModbusTransportType
  transactionId : Nat
  lastTransactionId : Nat
  state : MODBUS_STATE
  pduLength : Nat
  isCFG : Bool
  bufferedMessage : List Nat
  pdu : List Nat
deriving DecidableEq, Repr

/-! ## CRC16 (SlaveSimulator/modbuscommands.c, GetCRC / AddCRC)

`crc-util.c` (the A7/M4 `ValidateCRC`/`AddCRC`) is referenced by the build
file but is not among the provided sources; the identical table-driven
CRC16 is implemented in `SlaveSimulator/modbuscommands.c`, which is
embedded here. -/

/-- The 256-entry table `CRCTable` from `GetCRC`. -/
def CRCTable : List Nat := [
  0x0000, 0xC0C1, 0xC181, 0x0140, 0xC301, 0x03C0, 0x0280, 0xC241,
  0xC601, 0x06C0, 0x0780, 0xC741, 0x0500, 0xC5C1, 0xC481, 0x0440,
  0xCC01, 0x0CC0, 0x0D80, 0xCD41, 0x0F00, 0xCFC1, 0xCE81, 0x0E40,
  0x0A00, 0xCAC1, 0xCB81, 0x0B40, 0xC901, 0x09C0, 0x0880, 0xC841,
  0xD801, 0x18C0, 0x1980, 0xD941, 0x1B00, 0xDBC1, 0xDA81, 0x1A40,
  0x1E00, 0xDEC1, 0xDF81, 0x1F40, 0xDD01, 0x1DC0, 0x1C80, 0xDC41,
  0x1400, 0xD4C1, 0xD581, 0x1540, 0xD701, 0x17C0, 0x1680, 0xD641,
  0xD201, 0x12C0, 0x1380, 0xD341, 0x1100, 0xD1C1, 0xD081, 0x1040,
  0xF001, 0x30C0, 0x3180, 0xF141, 0x3300, 0xF3C1, 0xF281, 0x3240,
  0x3600, 0xF6C1, 0xF781, 0x3740, 0xF501, 0x35C0, 0x3480, 0xF441,
  0x3C00, 0xFCC1, 0xFD81, 0x3D40, 0xFF01, 0x3FC0, 0x3E80, 0xFE41,
  0xFA01, 0x3AC0, 0x3B80, 0xFB41, 0x3900, 0xF9C1, 0xF881, 0x3840,
  0x2800, 0xE8C1, 0xE981, 0x2940, 0xEB01, 0x2BC0, 0x2A80, 0xEA41,
  0xEE01, 0x2EC0, 0x2F80, 0xEF41, 0x2D00, 0xEDC1, 0xEC81, 0x2C40,
  0xE401, 0x24C0, 0x2580, 0xE541, 0x2700, 0xE7C1, 0xE681, 0x2640,
  0x2200, 0xE2C1, 0xE381, 0x2340, 0xE101, 0x21C0, 0x2080, 0xE041,
  0xA001, 0x60C0, 0x6180, 0xA141, 0x6300, 0xA3C1, 0xA281, 0x6240,
  0x6600, 0xA6C1, 0xA781, 0x6740, 0xA501, 0x65C0, 0x6480, 0xA441,
  0x6C00, 0xACC1, 0xAD81, 0x6D40, 0xAF01, 0x6FC0, 0x6E80, 0xAE41,
  0xAA01, 0x6AC0, 0x6B80, 0xAB41, 0x6900, 0xA9C1, 0xA881, 0x6840,
  0x7800, 0xB8C1, 0xB981, 0x7940, 0xBB01, 0x7BC0, 0x7A80, 0xBA41,
  0xBE01, 0x7EC0, 0x7F80, 0xBF41, 0x7D00, 0xBDC1, 0xBC81, 0x7C40,
  0xB401, 0x74C0, 0x7580, 0xB541, 0x7700, 0xB7C1, 0xB681, 0x7640,
  0x7200, 0xB2C1, 0xB381, 0x7340, 0xB101, 0x71C0, 0x7080, 0xB041,
  0x5000, 0x90C1, 0x9181, 0x5140, 0x9301, 0x53C0, 0x5280, 0x9241,
  0x9601, 0x56C0, 0x5780, 0x9741, 0x5500, 0x95C1, 0x9481, 0x5440,
  0x9C01, 0x5CC0, 0x5D80, 0x9D41, 0x5F00, 0x9FC1, 0x9E81, 0x5E40,
  0x5A00, 0x9AC1, 0x9B81, 0x5B40, 0x9901, 0x59C0, 0x5880, 0x9841,
  0x8801, 0x48C0, 0x4980, 0x8941, 0x4B00, 0x8BC1, 0x8A81, 0x4A40,
  0x4E00, 0x8EC1, 0x8F81, 0x4F40, 0x8D01, 0x4DC0, 0x4C80, 0x8C41,
  0x4400, 0x84C1, 0x8581, 0x4540, 0x8701, 0x47C0, 0x4680, 0x8641,
  0x8201, 0x42C0, 0x4380, 0x8341, 0x4100, 0x81C1, 0x8081, 0x4040]

/-- One loop iteration of `GetCRC`:
`TempNo = (uint8_t)(message[i] ^ crcVal); crcVal >>= 8; crcVal ^= CRCTable[TempNo];` -/
def crcStepByte (crcVal b : Nat) : Nat :=
  (crcVal >>> 8) ^^^ CRCTable.getD ((b ^^^ crcVal) % 256) 0

/-- `GetCRC` of modbuscommands.c: table-driven Modbus CRC16, init 0xFFFF. -/
def GetCRC (message : List Nat) : Nat :=
  message.foldl crcStepByte 0xFFFF

/-- `AddCRC` of modbuscommands.c.  Returns the extended message if the
buffer can hold `inputLength + 2` bytes, otherwise `none` (the C function
returns false and writes nothing). -/
def AddCRC (message : List Nat) (maxInputLength : Nat) : Option (List Nat) :=
  if message.length + 2 ≤ maxInputLength then
    some (message ++ [GetCRC message % 256, (GetCRC message >>> 8) % 256])
  else
    none

/-- Modelled from the spec: the implementation of `ValidateCRC` lives in
`crc-util.c`, which is not among the provided sources (only its header
`crc-util.h` is).  Per the spec (section 4.1) validation takes the bytes
including the trailing CRC and checks that the little-endian 16-bit
trailer equals the Modbus CRC16 of the preceding bytes. -/
def ValidateCRC (message : List Nat) : Bool :=
  2 ≤ message.length &&
    message.getD (message.length - 2) 0 = GetCRC (message.take (message.length - 2)) % 256 &&
    message.getD (message.length - 1) 0 = (GetCRC (message.take (message.length - 2)) >>> 8) % 256

/-! ## Function-code length table (GetFcodeLength, modbus.c lines 1361-1397) -/

/-- `GetFcodeLength`: maps a function code and the length byte to the
number of PDU bytes a complete message holds; 0 means unsupported. -/
def GetFcodeLength (fCode dataLength : Nat) : Nat :=
  if FCODE_ERROR_OFFSET < fCode ∧ fCode ≤ FCODE_ERROR_OFFSET + FCODE_RANGE then
    ERROR_CODE_LENGTH
  else if fCode = READ_COILS then PDU_HEADER_LENGTH + dataLength
  else if fCode = READ_DISCRETE_INPUTS then PDU_HEADER_LENGTH + dataLength
  else if fCode = READ_MULTIPLE_HOLDING_REGISTERS then PDU_HEADER_LENGTH + dataLength
  else if fCode = READ_INPUT_REGISTERS then PDU_HEADER_LENGTH + dataLength
  else if fCode = READ_FILE then PDU_HEADER_LENGTH + dataLength
  else if fCode = WRITE_SINGLE_COIL then PDU_HEADER_LENGTH + 3
  else if fCode = WRITE_SINGLE_HOLDING_REGISTER then PDU_HEADER_LENGTH + 3
  else if fCode = READ_EXCEPTION_STATUS then PDU_HEADER_LENGTH
  else if fCode = WRITE_MULTIPLE_COILS then PDU_HEADER_LENGTH + 3
  else if fCode = WRITE_MULTIPLE_HOLDING_REGISTERS then PDU_HEADER_LENGTH + 3
  else if fCode = WRITE_FILE then PDU_HEADER_LENGTH + dataLength
  else 0

/-! ## Transaction correlation (MessageHandler, modbus.c lines 1277-1328)

The nested conditionals of the `checkTransaction` block, factored into a
three-valued decision.  `accept` is the fall-through (no branch taken and
no early return), `staleDiscard` sets `isTransactionTooLow`, `futureAbort`
is the early `return failure` that clears the buffer. -/

inductive TxDecision
  | accept
  | staleDiscard
  | futureAbort
deriving DecidableEq, Repr

/-- The transaction-id comparison of `MessageHandler`.
`expected` is `hndl->transactionId`, `last` is `hndl->lastTransactionId`,
`rx` the id of the received frame. -/
def correlate (expected last rx : Nat) : TxDecision :=
  if rx = expected then .accept
  else if last < expected then
    -- no wraparound pending
    if expected < rx ∨ rx ≤ last then .futureAbort
    else if rx < expected then .staleDiscard
    else .accept   -- unreachable fall-through, kept to mirror the C control flow
  else
    -- wraparound pending (transactionId <= lastTransactionId)
    if last ≤ rx ∨ rx < expected then .staleDiscard
    else if expected < rx then .futureAbort
    else .accept   -- unreachable fall-through, kept to mirror the C control flow

/-! ## Per-transport framing parameters (MessageHandler, lines 1218-1245) -/

def minLengthOf : ModbusTransportType → Nat
  | .rtu => MESSAGE_HEADER_LENGTH + PDU_HEADER_LENGTH
  | .rtuOverTcp => CRC_FOOTER_LENGTH + PDU_HEADER_LENGTH
  | .tcp => TCP_HEADER_LENGTH + PDU_HEADER_LENGTH

def fCodeOffsetOf : ModbusTransportType → Nat
  | .rtu => MESSAGE_HEADER_LENGTH + 1
  | .rtuOverTcp => 1
  | .tcp => TCP_HEADER_LENGTH + 1

def pduLengthOffsetOf (t : ModbusTransportType) : Nat := fCodeOffsetOf t + 1

def transportHeaderLengthOf : ModbusTransportType → Nat
  | .rtu => MESSAGE_HEADER_LENGTH
  | .rtuOverTcp => 0
  | .tcp => TCP_HEADER_LENGTH

def transportFooterLengthOf : ModbusTransportType → Nat
  | .rtu => 0
  | .rtuOverTcp => CRC_FOOTER_LENGTH
  | .tcp => 0

def checkTransactionOf : ModbusTransportType → Bool
  | .tcp => true
  | _ => false

def checkCRCOf : ModbusTransportType → Bool
  | .rtuOverTcp => true
  | _ => false

/-! ## Reassembler (MessageHandler, modbus.c lines 1187-1355) -/

/-- The value the C code leaves in `pduMessageLength` after the
`if (hndl->bufferedMessageLength >= minLength || hndl->type == rtu)`
block: 0 when the gate is not passed. -/
def pduMessageLengthOf (hndl : Modbus) (buffered : List Nat) : Nat :=
  if minLengthOf hndl.type ≤ buffered.length ∨ hndl.type = .rtu then
    if hndl.isCFG then UART_CFG_MESSAGE_RESP_LENGTH
    else
      GetFcodeLength (buffered.getD (fCodeOffsetOf hndl.type) 0)
        (buffered.getD (pduLengthOffsetOf hndl.type) 0)
  else 0

/-- `pduMessageLength + transportHeaderLength + transportFooterLength`. -/
def totalLengthOf (hndl : Modbus) (buffered : List Nat) : Nat :=
  pduMessageLengthOf hndl buffered + transportHeaderLengthOf hndl.type +
    transportFooterLengthOf hndl.type

/-- The C flag `fullMessageAvailable`. -/
def fullMessageAvailable (hndl : Modbus) (buffered : List Nat) : Prop :=
  (minLengthOf hndl.type ≤ buffered.length ∨ hndl.type = .rtu) ∧
    totalLengthOf hndl buffered ≤ buffered.length

instance (hndl : Modbus) (buffered : List Nat) :
    Decidable (fullMessageAvailable hndl buffered) := by
  unfold fullMessageAvailable
  infer_instance

/-- Everything `MessageHandler` does after the new bytes have been
appended; `buffered` is the accumulation buffer content at that point.
The handle's `bufferedMessage` field is not read (only the parameter is),
and every path overwrites it in the result. -/
def processBuffer (hndl : Modbus) (buffered : List Nat) : Modbus × MessageHandlerState :=
  if fullMessageAvailable hndl buffered then
    -- first two buffer bytes, read for every transport
    let rxTransaction := buffered.getD 0 0 * 256 + buffered.getD 1 0
    let txDecision :=
      if checkTransactionOf hndl.type then
        correlate hndl.transactionId hndl.lastTransactionId rxTransaction
      else .accept
    if txDecision = .futureAbort then
      ({hndl with bufferedMessage := []}, .failure)
    else
      let crcFailed :=
        checkCRCOf hndl.type ∧
          ¬ ValidateCRC (buffered.take (pduMessageLengthOf hndl buffered +
            CRC_FOOTER_LENGTH)) = true
      if pduMessageLengthOf hndl buffered ≤ MAX_PDU_LENGTH ∧
          ¬ txDecision = .staleDiscard ∧ ¬ crcFailed then
        ({hndl with
            pduLength := pduMessageLengthOf hndl buffered,
            lastTransactionId := rxTransaction,
            pdu := (buffered.drop (transportHeaderLengthOf hndl.type)).take
              (pduMessageLengthOf hndl buffered),
            bufferedMessage := buffered.drop (totalLengthOf hndl buffered)}, .success)
      else
        ({hndl with bufferedMessage := buffered.drop (totalLengthOf hndl buffered)},
          .waiting)
  else
    ({hndl with bufferedMessage := buffered}, .waiting)

/-- `MessageHandler` of modbus.c: guard on lifecycle state, append the new
bytes (discarding everything if the bounded buffer would overflow), then
scan for a complete frame. -/
def MessageHandler (hndl : Modbus) (message : List Nat) : Modbus × MessageHandlerState :=
  if hndl.state ≠ .WaitingForResponse then
    ({hndl with bufferedMessage := []}, .waiting)
  else if hndl.bufferedMessage.length + message.length < MAX_PDU_LENGTH then
    processBuffer hndl (hndl.bufferedMessage ++ message)
  else
    ({hndl with bufferedMessage := []}, .waiting)

/-- One `EpollThread` loop body for an event on a handle
(modbus.c lines 1032-1064): a disconnected handle is skipped; `EPOLLIN`
feeds the received bytes to `MessageHandler` and promotes the result to
the lifecycle state; `EPOLLRDHUP`/`EPOLLHUP` forces `Disconnected`. -/
def EpollStep (hndl : Modbus) (epollIn epollHup : Bool) (message : List Nat) : Modbus :=
  if hndl.state = .Disconnected then hndl
  else
    let h1 :=
      if epollIn then
        let r := MessageHandler hndl message
        if r.2 = .success then {r.1 with state := .DataReceived}
        else if r.2 = .failure then {r.1 with state := .TransactionFailed}
        else r.1
      else hndl
    if epollHup then {h1 with state := .Disconnected} else h1

/-! ## Caller-side blocking wait (WaitForData, modbus.c lines 1399-1428)

The loop body sleeps `100000` nanoseconds per iteration and then
evaluates `timeout > 0 && counter++ > timeout` (`counter` is not
incremented when `timeout` is 0 thanks to short-circuiting).  On a handle
whose state never changes, the loop is a pure function of `timeout`; it
is modelled with fuel, returning the number of `nanosleep` calls
performed if the loop exits within the fuel. -/

def NANOSLEEP_NSEC : Nat := 100000

def wfdLoop (timeout counter fuel : Nat) : Option Nat :=
  match fuel with
  | 0 => none
  | fuel' + 1 =>
    if 0 < timeout then
      if timeout < counter then some 1
      else (wfdLoop timeout (counter + 1) fuel').map (· + 1)
    else
      (wfdLoop timeout counter fuel').map (· + 1)

/-- `WaitForData` on a handle whose state is not changed concurrently
(no response ever arrives).  Returns `(retval, handle, sleeps)`: the C
return value, the handle after the unconditional `hndl->state = Idle`,
and the number of `nanosleep(100000 ns)` calls made; `none` when the loop
does not exit within `fuel` iterations. -/
def WaitForData (hndl : Modbus) (timeout fuel : Nat) : Option (Bool × Modbus × Nat) :=
  if hndl.state = .DataReceived ∨ hndl.state = .TransactionFailed ∨
      hndl.state = .Disconnected then
    some (hndl.state = .DataReceived, {hndl with state := .Idle}, 0)
  else
    (wfdLoop timeout 0 fuel).map (fun n => (false, {hndl with state := .Idle}, n))

/-- `NotReadyReason` (modbus.c lines 1439-1445). -/
def NotReadyReason (hndl : Modbus) : Nat :=
  if hndl.state = .Disconnected then DEVICE_DISCONNECTED else HANDLE_IN_USE

/-! ## Request primitives (modbus.c lines 361-953)

The primitives perform I/O (socket send, blocking wait).  They are
embedded against a `SendOracle` describing the environment's behaviour:
whether `send` delivers the full frame, and the PDU (if any) that the
asynchronous delivery path has placed in the handle by the time
`WaitForData` returns.  The `sent` field of the result records every
frame handed to `send`. -/

def WRITE_RESPONSE_START : Nat := 2
def WRITE_RESPONSE_BYTES : Nat := 4

/-- The `SET_MODBUS_HEADER` macro: slave id, function code, big-endian
address, big-endian value. -/
def SET_MODBUS_HEADER (slaveID fcode d e : Nat) : List Nat :=
  [slaveID, fcode, d / 256 % 256, d % 256, e / 256 % 256, e % 256]

/-- Environment behaviour for one request. -/
structure SendOracle where
  sendOk : Bool
  response : Option (List Nat)
deriving DecidableEq, Repr

/-- Observable outcome of a request primitive: C return value, handle
afterwards, global transaction counter afterwards, frames handed to
`send`, and the bytes written into the caller's output buffer
(`readArray`); on failure that is the single error byte. -/
structure PrimResult where
  ok : Bool
  hndl : Modbus
  gtx : Nat
  sent : List (List Nat)
  out : List Nat
deriving DecidableEq, Repr

/-- Per-transport framing done by `ModBusWrite` (modbus.c lines
1070-1116).  For `rtuOverTcp` the C ignores `AddCRC`'s result: if the
packet does not fit it sends two uninitialised bytes after it (modelled
as zeros).  For `rtu` the fourth header byte is never written (modelled
as zero). -/
def frameFor (hndl : Modbus) (gtx : Nat) (packet : List Nat) : List Nat :=
  match hndl.type with
  | .tcp =>
      [gtx / 256 % 256, gtx % 256, 0, 0,
        packet.length / 256 % 256, packet.length % 256] ++ packet
  | .rtuOverTcp =>
      match AddCRC packet MAX_PDU_LENGTH with
      | some m => m
      | none => packet ++ [0, 0]
  | .rtu =>
      [(if hndl.isCFG then UART_PROTOCOL else MODBUS_PROTOCOL),
       (if hndl.isCFG then UART_CFG_MESSAGE else MODBUS_DATA_MESSAGE),
       MESSAGE_HEADER_LENGTH, 0] ++ packet

/-- `SendToSlave` (modbus.c lines 1165-1178): on a complete send the
handle records the current global transaction id (which is then
post-incremented as a 16-bit counter) and moves to `WaitingForResponse`;
otherwise the state falls back to `Idle`. -/
def SendToSlave (hndl : Modbus) (gtx : Nat) (sendOk : Bool) : Modbus × Nat × Bool :=
  if sendOk then
    ({hndl with transactionId := gtx % 65536, state := .WaitingForResponse},
      (gtx + 1) % 65536, true)
  else
    ({hndl with state := .Idle}, gtx, false)

/-- `ModBusWrite` (modbus.c lines 1070-1116): mark the handle as
sending, clear `pduLength`, frame the PDU for the transport and hand it
to `send`. -/
def ModBusWrite (hndl : Modbus) (gtx : Nat) (packet : List Nat) (sendOk : Bool) :
    Modbus × Nat × Bool × List (List Nat) :=
  let h1 := {hndl with state := .SendingRequest, pduLength := 0}
  let frame := frameFor h1 gtx packet
  let s := SendToSlave h1 gtx sendOk
  (s.1, s.2.1, s.2.2, [frame])

/-- The blocking wait of a request primitive, combined with the
asynchronous delivery path, under the oracle: when a response PDU was
delivered the wait observes `DataReceived` with the PDU in the handle;
otherwise it fails (timeout or disconnect).  `WaitForData`
unconditionally resets the state to `Idle` on exit. -/
def AwaitResponse (hndl : Modbus) (response : Option (List Nat)) : Modbus × Bool :=
  match response with
  | some pdu => ({hndl with pdu := pdu, pduLength := pdu.length, state := .Idle}, true)
  | none => ({hndl with state := .Idle}, false)

/-- `PduDataLength` (modbus.c lines 1430-1437): 16-bit subtraction of
the PDU header length; the `expected` argument only feeds a debug log. -/
def PduDataLength (hndl : Modbus) (_expected : Nat) : Nat :=
  (hndl.pduLength + 65536 - PDU_HEADER_LENGTH) % 65536

/-- `ReadCoils` (modbus.c lines 362-415). -/
def ReadCoils (hndl : Modbus) (gtx slaveID address bitsToRead : Nat)
    (oracle : SendOracle) : PrimResult :=
  let bytesToRead := (bitsToRead / 8 % 256 + if bitsToRead % 8 ≠ 0 then 1 else 0) % 256
  if hndl.state ≠ .Idle then ⟨false, hndl, gtx, [], [NotReadyReason hndl]⟩
  else
    let msg := SET_MODBUS_HEADER slaveID READ_COILS address bitsToRead
    let w := ModBusWrite {hndl with isCFG := false} gtx msg oracle.sendOk
    if ¬ w.2.2.1 then ⟨false, w.1, w.2.1, w.2.2.2, [MESSAGE_SEND_FAIL]⟩
    else
      let a := AwaitResponse w.1 oracle.response
      if ¬ a.2 then ⟨false, a.1, w.2.1, w.2.2.2, [ MODBUS_TIMEOUT ]⟩
      else if a.1.pdu.getD 1 0 &&& MODBUS_EXCEPTION_BIT ≠ 0 then
        ⟨false, a.1, w.2.1, w.2.2.2, [a.1.pdu.getD 2 0]⟩
      else if a.1.pdu.getD 1 0 ≠ READ_COILS then
        ⟨false, a.1, w.2.1, w.2.2.2, [INVALID_RESPONSE]⟩
      else
        ⟨true, a.1, w.2.1, w.2.2.2,
          (a.1.pdu.drop PDU_HEADER_LENGTH).take (PduDataLength a.1 bytesToRead)⟩

/-- `ReadDiscreteInputs` (modbus.c lines 417-470). -/
def ReadDiscreteInputs (hndl : Modbus) (gtx slaveID address bitsToRead : Nat)
    (oracle : SendOracle) : PrimResult :=
  let bytesToRead := (bitsToRead / 8 % 256 + if bitsToRead % 8 ≠ 0 then 1 else 0) % 256
  if hndl.state ≠ .Idle then ⟨false, hndl, gtx, [], [NotReadyReason hndl]⟩
  else
    let msg := SET_MODBUS_HEADER slaveID READ_DISCRETE_INPUTS address bitsToRead
    let w := ModBusWrite {hndl with isCFG := false} gtx msg oracle.sendOk
    if ¬ w.2.2.1 then ⟨false, w.1, w.2.1, w.2.2.2, [MESSAGE_SEND_FAIL]⟩
    else
      let a := AwaitResponse w.1 oracle.response
      if ¬ a.2 then ⟨false, a.1, w.2.1, w.2.2.2, [ MODBUS_TIMEOUT ]⟩
      else if a.1.pdu.getD 1 0 &&& MODBUS_EXCEPTION_BIT ≠ 0 then
        ⟨false, a.1, w.2.1, w.2.2.2, [a.1.pdu.getD 2 0]⟩
      else if a.1.pdu.getD 1 0 ≠ READ_DISCRETE_INPUTS then
        ⟨false, a.1, w.2.1, w.2.2.2, [INVALID_RESPONSE]⟩
      else
        ⟨true, a.1, w.2.1, w.2.2.2,
          (a.1.pdu.drop PDU_HEADER_LENGTH).take (PduDataLength a.1 bytesToRead)⟩

/-- `ReadMultipleHoldingRegisters` (modbus.c lines 472-525); the output
is the list of decoded big-endian 16-bit register values. -/
def ReadMultipleHoldingRegisters (hndl : Modbus) (gtx slaveID address registersToRead : Nat)
    (oracle : SendOracle) : PrimResult :=
  if hndl.state ≠ .Idle then ⟨false, hndl, gtx, [], [NotReadyReason hndl]⟩
  else
    let msg := SET_MODBUS_HEADER slaveID READ_MULTIPLE_HOLDING_REGISTERS address registersToRead
    let w := ModBusWrite {hndl with isCFG := false} gtx msg oracle.sendOk
    if ¬ w.2.2.1 then ⟨false, w.1, w.2.1, w.2.2.2, [MESSAGE_SEND_FAIL]⟩
    else
      let a := AwaitResponse w.1 oracle.response
      if ¬ a.2 then ⟨false, a.1, w.2.1, w.2.2.2, [ MODBUS_TIMEOUT ]⟩
      else if a.1.pdu.getD 1 0 &&& MODBUS_EXCEPTION_BIT ≠ 0 then
        ⟨false, a.1, w.2.1, w.2.2.2, [a.1.pdu.getD 2 0]⟩
      else if a.1.pdu.getD 1 0 ≠ READ_MULTIPLE_HOLDING_REGISTERS then
        ⟨false, a.1, w.2.1, w.2.2.2, [INVALID_RESPONSE]⟩
      else
        ⟨true, a.1, w.2.1, w.2.2.2,
          (List.range (PduDataLength a.1 (registersToRead * 2 % 65536) / 2)).map
            (fun i => a.1.pdu.getD (2 * i + 3) 0 <<< 8 ||| a.1.pdu.getD (2 * i + 4) 0)⟩

/-- `ReadInputRegisters` (modbus.c lines 527-578). -/
def ReadInputRegisters (hndl : Modbus) (gtx slaveID address registersToRead : Nat)
    (oracle : SendOracle) : PrimResult :=
  if hndl.state ≠ .Idle then ⟨false, hndl, gtx, [], [NotReadyReason hndl]⟩
  else
    let msg := SET_MODBUS_HEADER slaveID READ_INPUT_REGISTERS address registersToRead
    let w := ModBusWrite {hndl with isCFG := false} gtx msg oracle.sendOk
    if ¬ w.2.2.1 then ⟨false, w.1, w.2.1, w.2.2.2, [MESSAGE_SEND_FAIL]⟩
    else
      let a := AwaitResponse w.1 oracle.response
      if ¬ a.2 then ⟨false, a.1, w.2.1, w.2.2.2, [ MODBUS_TIMEOUT ]⟩
      else if a.1.pdu.getD 1 0 &&& MODBUS_EXCEPTION_BIT ≠ 0 then
        ⟨false, a.1, w.2.1, w.2.2.2, [a.1.pdu.getD 2 0]⟩
      else if a.1.pdu.getD 1 0 ≠ READ_INPUT_REGISTERS then
        ⟨false, a.1, w.2.1, w.2.2.2, [INVALID_RESPONSE]⟩
      else
        ⟨true, a.1, w.2.1, w.2.2.2,
          (List.range (PduDataLength a.1 (registersToRead * 2 % 65536) / 2)).map
            (fun i => a.1.pdu.getD (2 * i + 3) 0 <<< 8 ||| a.1.pdu.getD (2 * i + 4) 0)⟩

/-- `WriteSingleCoil` (modbus.c lines 593-640). -/
def WriteSingleCoil (hndl : Modbus) (gtx slaveID address : Nat) (bit : Bool)
    (oracle : SendOracle) : PrimResult :=
  if hndl.state ≠ .Idle then ⟨false, hndl, gtx, [], [NotReadyReason hndl]⟩
  else
    let msg := SET_MODBUS_HEADER slaveID WRITE_SINGLE_COIL address
      (if bit then 0xff00 else 0x00)
    let w := ModBusWrite {hndl with isCFG := false} gtx msg oracle.sendOk
    if ¬ w.2.2.1 then ⟨false, w.1, w.2.1, w.2.2.2, [MESSAGE_SEND_FAIL]⟩
    else
      let a := AwaitResponse w.1 oracle.response
      if ¬ a.2 then ⟨false, a.1, w.2.1, w.2.2.2, [ MODBUS_TIMEOUT ]⟩
      else if a.1.pdu.getD 1 0 &&& MODBUS_EXCEPTION_BIT ≠ 0 then
        ⟨false, a.1, w.2.1, w.2.2.2, [a.1.pdu.getD 2 0]⟩
      else if a.1.pdu.getD 1 0 ≠ WRITE_SINGLE_COIL then
        ⟨false, a.1, w.2.1, w.2.2.2, [INVALID_RESPONSE]⟩
      else
        ⟨true, a.1, w.2.1, w.2.2.2,
          (a.1.pdu.drop WRITE_RESPONSE_START).take WRITE_RESPONSE_BYTES⟩

/-- `WriteSingleHoldingRegister` (modbus.c lines 642-688). -/
def WriteSingleHoldingRegister (hndl : Modbus) (gtx slaveID address mbRegister : Nat)
    (oracle : SendOracle) : PrimResult :=
  if hndl.state ≠ .Idle then ⟨false, hndl, gtx, [], [NotReadyReason hndl]⟩
  else
    let msg := SET_MODBUS_HEADER slaveID WRITE_SINGLE_HOLDING_REGISTER address mbRegister
    let w := ModBusWrite {hndl with isCFG := false} gtx msg oracle.sendOk
    if ¬ w.2.2.1 then ⟨false, w.1, w.2.1, w.2.2.2, [MESSAGE_SEND_FAIL]⟩
    else
      let a := AwaitResponse w.1 oracle.response
      if ¬ a.2 then ⟨false, a.1, w.2.1, w.2.2.2, [ MODBUS_TIMEOUT ]⟩
      else if a.1.pdu.getD 1 0 &&& MODBUS_EXCEPTION_BIT ≠ 0 then
        ⟨false, a.1, w.2.1, w.2.2.2, [a.1.pdu.getD 2 0]⟩
      else if a.1.pdu.getD 1 0 ≠ WRITE_SINGLE_HOLDING_REGISTER then
        ⟨false, a.1, w.2.1, w.2.2.2, [INVALID_RESPONSE]⟩
      else
        ⟨true, a.1, w.2.1, w.2.2.2,
          (a.1.pdu.drop WRITE_RESPONSE_START).take WRITE_RESPONSE_BYTES⟩

/-- `WriteMultipleCoils` (modbus.c lines 690-741).  The C computes
`dataByteCount` as `(uint8_t)(numToWrite / 8 + (numToWrite & 0x7) ? 1 : 0)`;
by C precedence the whole sum is the ternary condition, so the count is
1 whenever `numToWrite` is nonzero and 0 otherwise — embedded as-is. -/
def WriteMultipleCoils (hndl : Modbus) (gtx slaveID address numToWrite : Nat)
    (bitArray : List Nat) (oracle : SendOracle) : PrimResult :=
  let dataByteCount := if numToWrite / 8 + (numToWrite &&& 0x7) ≠ 0 then 1 else 0
  if hndl.state ≠ .Idle then ⟨false, hndl, gtx, [], [NotReadyReason hndl]⟩
  else
    let msg := SET_MODBUS_HEADER slaveID WRITE_MULTIPLE_COILS address numToWrite ++
      [dataByteCount] ++ bitArray.take dataByteCount
    let w := ModBusWrite {hndl with isCFG := false} gtx msg oracle.sendOk
    if ¬ w.2.2.1 then ⟨false, w.1, w.2.1, w.2.2.2, [MESSAGE_SEND_FAIL]⟩
    else
      let a := AwaitResponse w.1 oracle.response
      if ¬ a.2 then ⟨false, a.1, w.2.1, w.2.2.2, [ MODBUS_TIMEOUT ]⟩
      else if a.1.pdu.getD 1 0 &&& MODBUS_EXCEPTION_BIT ≠ 0 then
        ⟨false, a.1, w.2.1, w.2.2.2, [a.1.pdu.getD 2 0]⟩
      else if a.1.pdu.getD 1 0 ≠ WRITE_MULTIPLE_COILS then
        ⟨false, a.1, w.2.1, w.2.2.2, [INVALID_RESPONSE]⟩
      else
        ⟨true, a.1, w.2.1, w.2.2.2,
          (a.1.pdu.drop WRITE_RESPONSE_START).take WRITE_RESPONSE_BYTES⟩

/-- `WriteMultipleHoldingRegisters` (modbus.c lines 743-799).  The packet
length passed to `ModBusWrite` is `(uint8_t)(7 + dataByteCount)`, hence
the truncating `take`. -/
def WriteMultipleHoldingRegisters (hndl : Modbus) (gtx slaveID address numToWrite : Nat)
    (registerArray : List Nat) (oracle : SendOracle) : PrimResult :=
  let dataByteCount := numToWrite * 2 % 256
  if hndl.state ≠ .Idle then ⟨false, hndl, gtx, [], [NotReadyReason hndl]⟩
  else
    let msg := SET_MODBUS_HEADER slaveID WRITE_MULTIPLE_HOLDING_REGISTERS address numToWrite ++
      [dataByteCount] ++
      ((List.range (dataByteCount / 2)).map
        (fun i => [registerArray.getD i 0 >>> 8 % 256, registerArray.getD i 0 % 256])).flatten
    let w := ModBusWrite {hndl with isCFG := false} gtx (msg.take ((7 + dataByteCount) % 256))
      oracle.sendOk
    if ¬ w.2.2.1 then ⟨false, w.1, w.2.1, w.2.2.2, [MESSAGE_SEND_FAIL]⟩
    else
      let a := AwaitResponse w.1 oracle.response
      if ¬ a.2 then ⟨false, a.1, w.2.1, w.2.2.2, [ MODBUS_TIMEOUT ]⟩
      else if a.1.pdu.getD 1 0 &&& MODBUS_EXCEPTION_BIT ≠ 0 then
        ⟨false, a.1, w.2.1, w.2.2.2, [a.1.pdu.getD 2 0]⟩
      else if a.1.pdu.getD 1 0 ≠ WRITE_MULTIPLE_HOLDING_REGISTERS then
        ⟨false, a.1, w.2.1, w.2.2.2, [INVALID_RESPONSE]⟩
      else
        ⟨true, a.1, w.2.1, w.2.2.2,
          (a.1.pdu.drop WRITE_RESPONSE_START).take WRITE_RESPONSE_BYTES⟩

/-- `ReadFileSubRequestBuilder` (modbus.c lines 801-815): the seven bytes
written into the message array (reference type 6, big-endian file
number, big-endian record number, 0, record length). -/
def ReadFileSubRequestBuilder (fileNumber recordNumber recordLength : Nat) : List Nat :=
  [6, fileNumber / 256 % 256, fileNumber % 256,
   recordNumber / 256 % 256, recordNumber % 256, 0, recordLength]

/-- `WriteFileSubRequestBuilder` (modbus.c lines 886-904). -/
def WriteFileSubRequestBuilder (fileNumber recordNumber recordLength : Nat)
    (record : List Nat) : List Nat :=
  [6, fileNumber / 256 % 256, fileNumber % 256,
   recordNumber / 256 % 256, recordNumber % 256, 0, recordLength] ++
  ((List.range recordLength).map
    (fun i => [record.getD i 0 >>> 8 % 256, record.getD i 0 % 256])).flatten

/-- `ReadFile` (modbus.c lines 817-884).  Note: no validation of the
sub-requests is performed before sending — only the state guard and the
`messageLength < MAX_PDU_LENGTH` size check. -/
def ReadFile (hndl : Modbus) (gtx slaveID : Nat) (messageArray : List Nat)
    (messageLength : Nat) (oracle : SendOracle) : PrimResult :=
  if hndl.state ≠ .Idle then ⟨false, hndl, gtx, [], [NotReadyReason hndl]⟩
  else if ¬ messageLength < MAX_PDU_LENGTH then
    ⟨false, hndl, gtx, [], [MESSAGE_SEND_FAIL]⟩
  else
    let msg := [slaveID, READ_FILE, messageLength] ++ messageArray.take messageLength
    -- sum of `(messageArray[i] * 2) + 2` over indices `i % 7 == 6`
    let expectedMessageLength :=
      ((List.range messageLength).filter (fun i => i % 7 = 6)).foldl
        (fun acc i => acc + messageArray.getD i 0 * 2 + 2) 0
    let w := ModBusWrite {hndl with isCFG := false} gtx msg oracle.sendOk
    if ¬ w.2.2.1 then ⟨false, w.1, w.2.1, w.2.2.2, [MESSAGE_SEND_FAIL]⟩
    else
      let a := AwaitResponse w.1 oracle.response
      if ¬ a.2 then ⟨false, a.1, w.2.1, w.2.2.2, [ MODBUS_TIMEOUT ]⟩
      else if a.1.pdu.getD 1 0 &&& MODBUS_EXCEPTION_BIT ≠ 0 then
        ⟨false, a.1, w.2.1, w.2.2.2, [a.1.pdu.getD 2 0]⟩
      else if a.1.pdu.getD 1 0 ≠ READ_FILE then
        ⟨false, a.1, w.2.1, w.2.2.2, [INVALID_RESPONSE]⟩
      else
        ⟨true, a.1, w.2.1, w.2.2.2,
          (a.1.pdu.drop PDU_HEADER_LENGTH).take (PduDataLength a.1 expectedMessageLength)⟩

/-- `WriteFile` (modbus.c lines 906-953): like `ReadFile` but with no
size check at all and no sub-request validation. -/
def WriteFile (hndl : Modbus) (gtx slaveID : Nat) (messageArray : List Nat)
    (messageLength : Nat) (oracle : SendOracle) : PrimResult :=
  if hndl.state ≠ .Idle then ⟨false, hndl, gtx, [], [NotReadyReason hndl]⟩
  else
    let msg := [slaveID, WRITE_FILE, messageLength] ++ messageArray.take messageLength
    let w := ModBusWrite {hndl with isCFG := false} gtx msg oracle.sendOk
    if ¬ w.2.2.1 then ⟨false, w.1, w.2.1, w.2.2.2, [MESSAGE_SEND_FAIL]⟩
    else
      let a := AwaitResponse w.1 oracle.response
      if ¬ a.2 then ⟨false, a.1, w.2.1, w.2.2.2, [ MODBUS_TIMEOUT ]⟩
      else if a.1.pdu.getD 1 0 &&& MODBUS_EXCEPTION_BIT ≠ 0 then
        ⟨false, a.1, w.2.1, w.2.2.2, [a.1.pdu.getD 2 0]⟩
      else if a.1.pdu.getD 1 0 ≠ WRITE_FILE then
        ⟨false, a.1, w.2.1, w.2.2.2, [INVALID_RESPONSE]⟩
      else
        ⟨true, a.1, w.2.1, w.2.2.2,
          (a.1.pdu.drop PDU_HEADER_LENGTH).take (PduDataLength a.1 messageLength)⟩

/-! ## Slave-side file request handling (SlaveSimulator/modbuscommands.c) -/

/-- `fileRead` of modbuscommands.c: record data comes from the
`fileStore` array (modelled as a function from file number and byte
index to the stored byte); only files 1..6 exist. -/
def fileRead (fileStore : Nat → Nat → Nat) (fileNo recordNo recordsToRead : Nat) :
    Nat × List Nat :=
  if 0 < fileNo ∧ fileNo ≤ 6 then
    (0, (List.range (recordsToRead * 2)).map (fun j => fileStore fileNo (recordNo * 2 + j)))
  else
    (ILLEGAL_DATA_ADDRESS, [])

/-- The sub-request loop of `requestRead` (modbuscommands.c lines
70-104): `i` is the loop index, `count` the remaining iterations, `ret`
the current return value, `outAcc` the response bytes built after the
3-byte header. -/
def requestReadLoop (fileStore : Nat → Nat → Nat) (messageIn : List Nat)
    (i count ret : Nat) (outAcc : List Nat) : Nat × List Nat :=
  match count with
  | 0 => (ret, outAcc)
  | c + 1 =>
    let base := 3 + 7 * i
    if messageIn.getD base 0 = 6 then
      let recordsToRead := messageIn.getD (base + 6) 0
      let fileNo := messageIn.getD (base + 2) 0 ||| messageIn.getD (base + 1) 0 <<< 8
      let recordNo := messageIn.getD (base + 4) 0 ||| messageIn.getD (base + 3) 0 <<< 8
      if recordNo + recordsToRead < 10000 then
        let r := fileRead fileStore fileNo recordNo recordsToRead
        requestReadLoop fileStore messageIn (i + 1) c r.1
          (outAcc ++ [recordsToRead * 2 % 256, 6] ++ r.2)
      else (ILLEGAL_DATA_ADDRESS, outAcc)
    else (ILLEGAL_DATA_VALUE, outAcc)

/-- `requestRead` of modbuscommands.c: validate the byte count, then
process each 7-byte sub-request; a sub-request with
`recordNo + recordsToRead >= 10000` is rejected with
`ILLEGAL_DATA_ADDRESS`.  Returns the status and the response bytes after
the 3-byte response header. -/
def requestRead (fileStore : Nat → Nat → Nat) (messageIn : List Nat) : Nat × List Nat :=
  if 0x07 ≤ messageIn.getD 2 0 ∧ messageIn.getD 2 0 ≤ 0xF5 then
    requestReadLoop fileStore messageIn 0 (messageIn.getD 2 0 / 7) 0 []
  else
    (ILLEGAL_DATA_VALUE, [])

/-- `fileWrite` of modbuscommands.c (lines 192-206): writes the record
bytes into the file store (modelled functionally) and echoes them into
the response; only files 1..6 exist.  Returns the status, the updated
store and the echoed bytes. -/
def fileWrite (fileStore : Nat → Nat → Nat) (dataIn : List Nat)
    (fileNo recordNo recordsToWrite : Nat) :
    Nat × (Nat → Nat → Nat) × List Nat :=
  if 0 < fileNo ∧ fileNo ≤ 6 then
    (0,
     fun f j =>
       if f = fileNo ∧ recordNo * 2 ≤ j ∧ j < recordNo * 2 + recordsToWrite * 2 then
         dataIn.getD (j - recordNo * 2) 0
       else fileStore f j,
     dataIn.take (recordsToWrite * 2))
  else (ILLEGAL_DATA_ADDRESS, fileStore, [])

/-- The sub-request loop of `requestWrite` (modbuscommands.c lines
123-171): `off` is the byte offset past the 3-byte header, `dataRead`
the loop counter compared against the byte count, `fuel` a bound on the
iteration count (each iteration advances `dataRead` by at least 7, so a
fuel of the byte count is never exhausted). -/
def requestWriteLoop (fileStore : Nat → Nat → Nat) (messageIn : List Nat)
    (off dataRead ret : Nat) (outAcc : List Nat) :
    Nat → Nat × (Nat → Nat → Nat) × List Nat
  | 0 => (ret, fileStore, outAcc)
  | fuel + 1 =>
    if dataRead < messageIn.getD 2 0 then
      let base := 3 + off
      if messageIn.getD base 0 = 6 then
        let fileNo := messageIn.getD (base + 2) 0 ||| messageIn.getD (base + 1) 0 <<< 8
        let recordNo := messageIn.getD (base + 4) 0 ||| messageIn.getD (base + 3) 0 <<< 8
        let recordsToWrite := messageIn.getD (base + 6) 0
        if recordNo + recordsToWrite < 10000 then
          let w := fileWrite fileStore
            ((messageIn.drop (base + 7)).take (recordsToWrite * 2))
            fileNo recordNo recordsToWrite
          if w.1 ≠ 0 then (w.1, fileStore, outAcc)
          else
            requestWriteLoop w.2.1 messageIn (off + recordsToWrite * 2 + 7)
              (dataRead + recordsToWrite * 2 + 7) w.1
              (outAcc ++ [6, messageIn.getD (base + 1) 0, messageIn.getD (base + 2) 0,
                messageIn.getD (base + 3) 0, messageIn.getD (base + 4) 0, 0,
                recordsToWrite] ++ w.2.2) fuel
        else (ILLEGAL_DATA_ADDRESS, fileStore, outAcc)
      else (ILLEGAL_DATA_VALUE, fileStore, outAcc)
    else (ret, fileStore, outAcc)

/-- `requestWrite` of modbuscommands.c (lines 115-172): unlike
`requestRead` there is no validation of the byte count; each sub-request
is checked for reference type 6 and for
`recordNo + recordsToWrite < 10000`, the latter rejected with
`ILLEGAL_DATA_ADDRESS`.  Returns the status, the file store afterwards
and the response bytes after the 3-byte response header. -/
def requestWrite (fileStore : Nat → Nat → Nat) (messageIn : List Nat) :
    Nat × (Nat → Nat → Nat) × List Nat :=
  requestWriteLoop fileStore messageIn 0 0 0 [] (messageIn.getD 2 0)

example : GetFcodeLength 129 7 = 3 := by decide
example : GetFcodeLength 1 4 = 7 := by decide
example : correlate 0 65534 65535 = .staleDiscard := by decide
example : correlate 0 65534 1 = .futureAbort := by decide
example : GetCRC [0x01, 0x04, 0x02, 0xFF, 0xFF] = 0x80B8 := by decide

/-- The spec's transaction window, word for word ("if `rx_id` falls
strictly between `last_good_id` (exclusive) and `expected_id`
(exclusive)" under 16-bit wraparound-aware ordering): the open cyclic
interval from `L` to `E`.  Stated from the spec for comparison with the
code's `correlate`. -/
def specStrictlyBetween (L E R : Nat) : Prop :=
  if L < E then L < R ∧ R < E else (L < R ∨ R < E)

instance (L E R : Nat) : Decidable (specStrictlyBetween L E R) := by
  unfold specStrictlyBetween
  infer_instance

/-- One bit step of the reflected CRC16 division (polynomial 0xA001). -/
def bitStep (v : Nat) : Nat :=
  if v % 2 = 1 then v / 2 ^^^ 0xA001 else v / 2

/-- `n` bit steps. -/
def bitStepN : Nat → Nat → Nat
  | 0, v => v
  | n + 1, v => bitStepN n (bitStep v)

/-- Feeding a sequence of byte chunks to `MessageHandler` one call at a
time; the handle stays in `WaitingForResponse` throughout (the claim's
stipulation — `MessageHandler` itself never changes the lifecycle
state).  Returns the handle and the outcome of the last call. -/
def feedAll (hndl : Modbus) (chunks : List (List Nat)) : Modbus × MessageHandlerState :=
  chunks.foldl (fun acc chunk => MessageHandler acc.1 chunk) (hndl, .waiting)

/-! ## Helper lemmas -/

/-- Characterisation of the correlator's three outcomes.  Note the stale
window is `L ≤ R ∨ R < E` (inclusive at `L`) when a wraparound is
pending (`E ≤ L`), but `L < R ∧ R < E` (exclusive) otherwise. -/
lemma correlate_cases (E L R : Nat) :
    (correlate E L R = .accept ↔ R = E) ∧
    (correlate E L R = .staleDiscard ↔
      R ≠ E ∧ (if L < E then L < R ∧ R < E else (L ≤ R ∨ R < E))) ∧
    (correlate E L R = .futureAbort ↔
      R ≠ E ∧ ¬ (if L < E then L < R ∧ R < E else (L ≤ R ∨ R < E))) := by
  unfold correlate
  split_ifs <;> simp_all <;> omega

lemma processBuffer_bufferedMessage_irrel (h : Modbus) (p b : List Nat) :
    processBuffer {h with bufferedMessage := p} b = processBuffer h b := by
  cases h
  rfl

lemma pduMessageLengthOf_tcp (h : Modbus) (b : List Nat)
    (hty : h.type = .tcp) (hcfg : h.isCFG = false) (hmin : 9 ≤ b.length) :
    pduMessageLengthOf h b = GetFcodeLength (b.getD 7 0) (b.getD 8 0) := by
  unfold pduMessageLengthOf
  rw [if_pos, hcfg]
  · simp [hty, fCodeOffsetOf, pduLengthOffsetOf, TCP_HEADER_LENGTH]
  · left
    rw [hty]
    simp only [minLengthOf, TCP_HEADER_LENGTH, PDU_HEADER_LENGTH]
    omega

/-- A complete TCP frame `F` (with `extra` surplus bytes behind it) in
the accumulation buffer is resolved by the correlator outcome: accepted,
discarded alone, or the whole buffer discarded. -/
lemma processBuffer_tcp_full (h : Modbus) (F extra : List Nat)
    (hty : h.type = .tcp) (hcfg : h.isCFG = false)
    (hmin : 9 ≤ F.length)
    (hlen : F.length = GetFcodeLength (F.getD 7 0) (F.getD 8 0) + 6)
    (hpml : GetFcodeLength (F.getD 7 0) (F.getD 8 0) ≤ 254) :
    processBuffer h (F ++ extra) =
      match correlate h.transactionId h.lastTransactionId
          (F.getD 0 0 * 256 + F.getD 1 0) with
      | .accept =>
          ({h with pduLength := GetFcodeLength (F.getD 7 0) (F.getD 8 0),
                   lastTransactionId := F.getD 0 0 * 256 + F.getD 1 0,
                   pdu := F.drop 6,
                   bufferedMessage := extra}, .success)
      | .staleDiscard => ({h with bufferedMessage := extra}, .waiting)
      | .futureAbort => ({h with bufferedMessage := []}, .failure) := by
  have h7 : (F ++ extra).getD 7 0 = F.getD 7 0 := List.getD_append _ _ _ _ (by omega)
  have h8 : (F ++ extra).getD 8 0 = F.getD 8 0 := List.getD_append _ _ _ _ (by omega)
  have h0 : (F ++ extra).getD 0 0 = F.getD 0 0 := List.getD_append _ _ _ _ (by omega)
  have hlapp : (F ++ extra).length = F.length + extra.length := List.length_append _ _
  have h1 : (F ++ extra).getD 1 0 = F.getD 1 0 := List.getD_append _ _ _ _ (by omega)
  have hpm : pduMessageLengthOf h (F ++ extra) =
      GetFcodeLength (F.getD 7 0) (F.getD 8 0) := by
    rw [pduMessageLengthOf_tcp h _ hty hcfg (by omega), h7, h8]
  have htot : totalLengthOf h (F ++ extra) =
      GetFcodeLength (F.getD 7 0) (F.getD 8 0) + 6 := by
    unfold totalLengthOf
    rw [hpm, hty]
    simp [transportHeaderLengthOf, transportFooterLengthOf, TCP_HEADER_LENGTH]
  have hfull : fullMessageAvailable h (F ++ extra) := by
    refine ⟨Or.inl ?_, ?_⟩
    · rw [hty]
      simp only [minLengthOf, TCP_HEADER_LENGTH, PDU_HEADER_LENGTH]
      omega
    · rw [htot]
      omega
  have hdrop6 : (F ++ extra).drop 6 = F.drop 6 ++ extra :=
    List.drop_append_of_le_length (by omega)
  have htake : (F.drop 6 ++ extra).take (GetFcodeLength (F.getD 7 0) (F.getD 8 0)) =
      F.drop 6 := List.take_left' (by rw [List.length_drop]; omega)
  have hdropTot :
      (F ++ extra).drop (GetFcodeLength (F.getD 7 0) (F.getD 8 0) + 6) = extra :=
    List.drop_left' (by omega)
  simp only [processBuffer, hpm, htot, h0, h1, hty, checkTransactionOf, checkCRCOf,
    transportHeaderLengthOf, TCP_HEADER_LENGTH, MAX_PDU_LENGTH, hdrop6, htake,
    hdropTot, if_true, Bool.false_eq_true, false_and, not_false_eq_true, and_true,
    true_and]
  rw [if_pos hfull]
  rcases hc : correlate h.transactionId h.lastTransactionId
      (F.getD 0 0 * 256 + F.getD 1 0) with _ | _ | _
  · -- accept
    rw [if_neg (by simp), if_pos (by exact ⟨by omega, by simp⟩)]
  · -- staleDiscard
    rw [if_neg (by simp), if_neg (by simp)]
  · -- futureAbort
    rw [if_pos rfl]

/-! ## C1: transaction correlation (TCP) -/

/-- C1 (amended): processing a complete TCP frame with received id `R`
against outstanding id `E` and last matched id `L`: `R = E` accepts the
frame and updates `L` to `R`; when `L < E` (no wraparound pending) a
frame with `L < R < E` (strictly) is a stale discard — only the frame is
dropped and the handler keeps waiting; when a wraparound is pending
(`E ≤ L`) the stale window is `L ≤ R ∨ R < E`, **inclusive** of `L`;
every other id discards the whole accumulation buffer and fails the
wait.  In particular with `E = 0`, `L = 65534`: `R = 65535` is a stale
discard and `R = 1` a future abort. -/
theorem c1_amended (h : Modbus) (F extra : List Nat) (R : Nat)
    (hty : h.type = .tcp) (hst : h.state = .WaitingForResponse)
    (hbuf : h.bufferedMessage = []) (hcfg : h.isCFG = false)
    (hR : R = F.getD 0 0 * 256 + F.getD 1 0)
    (hmin : 9 ≤ F.length)
    (hlen : F.length = GetFcodeLength (F.getD 7 0) (F.getD 8 0) + 6)
    (hcap : F.length + extra.length ≤ 253) :
    (R = h.transactionId →
      MessageHandler h (F ++ extra) =
        ({h with pduLength := GetFcodeLength (F.getD 7 0) (F.getD 8 0),
                 lastTransactionId := R, pdu := F.drop 6,
                 bufferedMessage := extra}, .success)) ∧
    (R ≠ h.transactionId →
      (if h.lastTransactionId < h.transactionId
        then h.lastTransactionId < R ∧ R < h.transactionId
        else (h.lastTransactionId ≤ R ∨ R < h.transactionId)) →
      MessageHandler h (F ++ extra) = ({h with bufferedMessage := extra}, .waiting)) ∧
    (R ≠ h.transactionId →
      ¬ (if h.lastTransactionId < h.transactionId
          then h.lastTransactionId < R ∧ R < h.transactionId
          else (h.lastTransactionId ≤ R ∨ R < h.transactionId)) →
      MessageHandler h (F ++ extra) = ({h with bufferedMessage := []}, .failure)) ∧
    correlate 0 65534 65535 = .staleDiscard ∧ correlate 0 65534 1 = .futureAbort := by
  have hmh : MessageHandler h (F ++ extra) = processBuffer h (F ++ extra) := by
    unfold MessageHandler
    rw [if_neg (by simp [hst]), if_pos (by simp [hbuf, MAX_PDU_LENGTH]; omega), hbuf]
    simp
  have hfull := processBuffer_tcp_full h F extra hty hcfg hmin hlen (by omega)
  subst hR
  refine ⟨?_, ?_, ?_, by decide, by decide⟩
  · intro hacc
    rw [hmh, hfull, ((correlate_cases h.transactionId h.lastTransactionId _).1).2 hacc]
  · intro hne hwin
    rw [hmh, hfull,
      ((correlate_cases h.transactionId h.lastTransactionId _).2.1).2 ⟨hne, hwin⟩]
  · intro hne hwin
    rw [hmh, hfull,
      ((correlate_cases h.transactionId h.lastTransactionId _).2.2).2 ⟨hne, hwin⟩]

/-- C1 counterexample: with `E = 0`, `L = 65534`, an inbound frame with
`R = 65534` is **not** in the claim's strictly-between window (its lower
end `L` is exclusive), so the claim requires a hard FutureAbort; the
code instead treats `R = L` as a stale discard (`rx >= lastTransactionId`
is inclusive in the wraparound branch) and keeps waiting. -/
theorem c1_counterexample :
    ¬ specStrictlyBetween 65534 0 65534 ∧
    correlate 0 65534 65534 = .staleDiscard ∧
    MessageHandler ⟨.tcp, 0, 65534, .WaitingForResponse, 0, false, [], []⟩
        [0xFF, 0xFE, 0, 0, 0, 5, 1, 1, 2, 0xAB, 0xCD] =
      (⟨.tcp, 0, 65534, .WaitingForResponse, 0, false, [], []⟩, .waiting) := by
  refine ⟨by decide, by decide, ?_⟩
  decide

theorem c1_amended_witness :
    MessageHandler ⟨.tcp, 2, 1, .WaitingForResponse, 0, false, [], []⟩
        [0, 2, 0, 0, 0, 5, 1, 1, 2, 0xAB, 0xCD] =
      (⟨.tcp, 2, 2, .WaitingForResponse, 5, false, [], [1, 1, 2, 0xAB, 0xCD]⟩,
        .success) := by
  have := (c1_amended ⟨.tcp, 2, 1, .WaitingForResponse, 0, false, [], []⟩
    [0, 2, 0, 0, 0, 5, 1, 1, 2, 0xAB, 0xCD] [] 2 rfl rfl rfl rfl (by decide)
    (by decide) (by decide) (by decide)).1 (by decide)
  simpa using this

/-- C4 counterexample: the claim says every function code with the high
bit set (`f ≥ 0x80`) resolves to the fixed 3-byte exception length, but
`GetFcodeLength` only treats `FCODE_ERROR_OFFSET < f`, so `f = 0x80`
itself falls through the table to the unsupported default 0. -/
theorem c4_counterexample :
    MODBUS_EXCEPTION_BIT ≤ 128 ∧ GetFcodeLength 128 0 ≠ ERROR_CODE_LENGTH ∧
      GetFcodeLength 128 0 = 0 := by
  decide

/-- C4 (amended): for every function-code byte `f` with
`0x80 < f ≤ 0x80 + 32` and every length byte `d`, `GetFcodeLength f d`
is the fixed 3-byte exception length, independent of `d` and of the
per-function-code table; `f = 0x80` exactly and `f > 0xA0` instead fall
through to the unsupported default 0. -/
theorem c4_amended (f d : Nat) :
    (FCODE_ERROR_OFFSET < f → f ≤ FCODE_ERROR_OFFSET + FCODE_RANGE →
      GetFcodeLength f d = ERROR_CODE_LENGTH) ∧
    ((f = FCODE_ERROR_OFFSET ∨ FCODE_ERROR_OFFSET + FCODE_RANGE < f) →
      GetFcodeLength f d = 0) := by
  constructor
  · intro h1 h2
    unfold GetFcodeLength
    rw [if_pos ⟨h1, h2⟩]
  · intro hf
    have hf' : f = 128 ∨ 160 < f := by
      simpa only [FCODE_ERROR_OFFSET, FCODE_RANGE] using hf
    rcases hf' with rfl | hgt
    · simp [GetFcodeLength, FCODE_ERROR_OFFSET, FCODE_RANGE, READ_COILS,
        READ_DISCRETE_INPUTS, READ_MULTIPLE_HOLDING_REGISTERS, READ_INPUT_REGISTERS,
        READ_FILE, WRITE_SINGLE_COIL, WRITE_SINGLE_HOLDING_REGISTER,
        READ_EXCEPTION_STATUS, WRITE_MULTIPLE_COILS, WRITE_MULTIPLE_HOLDING_REGISTERS,
        WRITE_FILE]
    · unfold GetFcodeLength
      rw [if_neg (by simp only [FCODE_ERROR_OFFSET, FCODE_RANGE]; omega),
        if_neg (by simp only [READ_COILS]; omega),
        if_neg (by simp only [READ_DISCRETE_INPUTS]; omega),
        if_neg (by simp only [READ_MULTIPLE_HOLDING_REGISTERS]; omega),
        if_neg (by simp only [READ_INPUT_REGISTERS]; omega),
        if_neg (by simp only [READ_FILE]; omega),
        if_neg (by simp only [WRITE_SINGLE_COIL]; omega),
        if_neg (by simp only [WRITE_SINGLE_HOLDING_REGISTER]; omega),
        if_neg (by simp only [READ_EXCEPTION_STATUS]; omega),
        if_neg (by simp only [WRITE_MULTIPLE_COILS]; omega),
        if_neg (by simp only [WRITE_MULTIPLE_HOLDING_REGISTERS]; omega),
        if_neg (by simp only [WRITE_FILE]; omega)]

theorem c4_amended_witness :
    GetFcodeLength 160 99 = ERROR_CODE_LENGTH ∧ GetFcodeLength 161 99 = 0 :=
  ⟨(c4_amended 160 99).1 (by decide) (by decide),
   (c4_amended 161 99).2 (Or.inr (by decide))⟩

/-! ## C3: buffer overflow handling -/

/-- C3 (amended): when appending the delivered bytes would reach or
exceed the maximum buffer size, `MessageHandler` resets the accumulation
buffer to empty and returns the still-`waiting` outcome (not a failure);
the `EpollThread` therefore leaves the lifecycle state at
`WaitingForResponse`, and the in-flight request can only fail later
(by timing out). -/
theorem c3_amended (h : Modbus) (msg : List Nat)
    (hst : h.state = .WaitingForResponse)
    (hov : MAX_PDU_LENGTH ≤ h.bufferedMessage.length + msg.length) :
    MessageHandler h msg = ({h with bufferedMessage := []}, .waiting) ∧
    (EpollStep h true false msg).state = .WaitingForResponse := by
  have hmh : MessageHandler h msg = ({h with bufferedMessage := []}, .waiting) := by
    unfold MessageHandler
    rw [if_neg (by simp [hst]), if_neg (by omega)]
  refine ⟨hmh, ?_⟩
  unfold EpollStep
  rw [if_neg (by simp [hst])]
  simp [hmh, hst]

/-- C3 counterexample: a handle waiting with 100 buffered bytes receives
200 more (appending would exceed the 254-byte maximum).  The claim says
this is reported as an `Overflow` that fails the in-flight request; the
code instead returns the still-waiting outcome and the state machine
stays in `WaitingForResponse`. -/
theorem c3_counterexample :
    MAX_PDU_LENGTH < 100 + 200 ∧
    MessageHandler
        ⟨.tcp, 5, 4, .WaitingForResponse, 0, false, List.replicate 100 0, []⟩
        (List.replicate 200 0) =
      (⟨.tcp, 5, 4, .WaitingForResponse, 0, false, [], []⟩, .waiting) ∧
    (EpollStep ⟨.tcp, 5, 4, .WaitingForResponse, 0, false, List.replicate 100 0, []⟩
        true false (List.replicate 200 0)).state = .WaitingForResponse := by
  refine ⟨by decide, ?_, ?_⟩
  · exact (c3_amended _ _ rfl (by decide)).1
  · exact (c3_amended _ _ rfl (by decide)).2

set_option maxRecDepth 4000 in
theorem c3_amended_witness :
    MessageHandler
        ⟨.rtuOverTcp, 0, 0, .WaitingForResponse, 0, false, [], []⟩
        (List.replicate 254 0) =
      (⟨.rtuOverTcp, 0, 0, .WaitingForResponse, 0, false, [], []⟩, .waiting) := by
  have := c3_amended ⟨.rtuOverTcp, 0, 0, .WaitingForResponse, 0, false, [], []⟩
    (List.replicate 254 0) rfl (by decide)
  simpa using this.1

/-! ## C10: delivery while not waiting -/

/-- C10: bytes delivered to a handle whose state is not
`WaitingForResponse` are discarded entirely (the accumulation buffer is
reset to empty), `MessageHandler` returns the waiting outcome, and the
`EpollThread` step leaves the pdu buffer, `pduLength` and lifecycle state
unchanged — no transition to `DataReceived` or `TransactionFailed` can
occur. -/
theorem c10_unsolicited_discard (h : Modbus) (msg : List Nat)
    (hst : h.state ≠ .WaitingForResponse) :
    MessageHandler h msg = ({h with bufferedMessage := []}, .waiting) ∧
    (EpollStep h true false msg).state = h.state ∧
    (EpollStep h true false msg).pdu = h.pdu ∧
    (EpollStep h true false msg).pduLength = h.pduLength := by
  have hmh : MessageHandler h msg = ({h with bufferedMessage := []}, .waiting) := by
    unfold MessageHandler
    rw [if_pos hst]
  refine ⟨hmh, ?_⟩
  unfold EpollStep
  by_cases hd : h.state = .Disconnected
  · simp [hd]
  · rw [if_neg hd]
    simp [hmh]

theorem c10_witness :
    MessageHandler ⟨.tcp, 7, 6, .Idle, 5, false, [1, 2, 3], [9, 9]⟩ [0, 7, 0, 0] =
      (⟨.tcp, 7, 6, .Idle, 5, false, [], [9, 9]⟩, .waiting) := by
  have := c10_unsolicited_discard ⟨.tcp, 7, 6, .Idle, 5, false, [1, 2, 3], [9, 9]⟩
    [0, 7, 0, 0] (by decide)
  simpa using this.1

/-! ## C7: timeout scaling in WaitForData -/

lemma wfdLoop_zero_timeout (fuel : Nat) : ∀ c, wfdLoop 0 c fuel = none := by
  induction fuel with
  | zero => intro c; rfl
  | succ f ih => intro c; simp [wfdLoop, ih]

lemma wfdLoop_exit (t : Nat) (ht : 0 < t) :
    ∀ fuel c, c ≤ t + 1 → t + 2 - c ≤ fuel → wfdLoop t c fuel = some (t + 2 - c) := by
  intro fuel
  induction fuel with
  | zero => intro c hc hf; omega
  | succ f ih =>
    intro c hc hf
    unfold wfdLoop
    rw [if_pos ht]
    by_cases hbr : t < c
    · have hceq : c = t + 1 := by omega
      subst hceq
      rw [if_pos hbr]
      congr 1
      omega
    · rw [if_neg hbr, ih (c + 1) (by omega) (by omega)]
      simp only [Option.map_some']
      congr 1
      omega

/-- C7: evidence for the timeout-unit defect.  With timeout `t ≥ 1` (in
milliseconds per the claim, the header docs and the comment above
`WaitForData`) and no response ever arriving, the loop performs exactly
`t + 2` sleeps of 100000 ns each before giving up, so its guaranteed
minimum wait `(t + 2) * 100000` ns is strictly below the documented
`t` ms (`t * 1000000` ns) — the call can return long before `T`
milliseconds.  The call does return `false` and reset the state to
`Idle`, and a timeout of 0 never exits the loop (waits indefinitely). -/
theorem c7_timeout_units (h : Modbus) (t : Nat)
    (hst : h.state = .WaitingForResponse) (ht : 1 ≤ t) :
    WaitForData h t (t + 2) = some (false, {h with state := .Idle}, t + 2) ∧
    (t + 2) * NANOSLEEP_NSEC < t * 1000000 ∧
    (∀ fuel, WaitForData h 0 fuel = none) := by
  have hnt : ¬ (h.state = .DataReceived ∨ h.state = .TransactionFailed ∨
      h.state = .Disconnected) := by simp [hst]
  refine ⟨?_, ?_, ?_⟩
  · unfold WaitForData
    rw [if_neg hnt, wfdLoop_exit t (by omega) (t + 2) 0 (by omega) (by omega)]
    simp
  · simp only [NANOSLEEP_NSEC]
    omega
  · intro fuel
    unfold WaitForData
    rw [if_neg hnt, wfdLoop_zero_timeout]
    rfl

theorem c7_timeout_units_witness :
    WaitForData ⟨.tcp, 0, 0, .WaitingForResponse, 0, false, [], []⟩ 1000 1002 =
      some (false, ⟨.tcp, 0, 0, .Idle, 0, false, [], []⟩, 1002) ∧
    1002 * NANOSLEEP_NSEC < 1000 * 1000000 := by
  have := c7_timeout_units ⟨.tcp, 0, 0, .WaitingForResponse, 0, false, [], []⟩ 1000
    rfl (by decide)
  exact ⟨by simpa using this.1, by simpa using this.2.1⟩

/-! ## C6: stickiness of Disconnected -/

/-- C6 counterexample: a blocking wait completing on a `Disconnected`
handle resets the state to `Idle` (the unconditional
`hndl->state = Idle` at the end of `WaitForData`), contradicting the
claim that nothing but recreating the transport leaves `Disconnected`. -/
theorem c6_counterexample :
    WaitForData ⟨.tcp, 3, 2, .Disconnected, 0, false, [], []⟩ 500 0 =
      some (false, ⟨.tcp, 3, 2, .Idle, 0, false, [], []⟩, 0) ∧
    MODBUS_STATE.Idle ≠ MODBUS_STATE.Disconnected := by
  constructor
  · rfl
  · decide

/-- C6 (amended): `Disconnected` is sticky under the delivery flow (the
epoll loop skips disconnected handles) and under every request
primitive (which fails without touching the handle) — but **not** under
completion of a blocking wait: `WaitForData` exits immediately on a
disconnected handle, returns failure, and resets the state to `Idle`,
after which a new request is accepted. -/
theorem c6_amended :
    (∀ (h : Modbus) inEv hupEv msg, h.state = .Disconnected →
      EpollStep h inEv hupEv msg = h) ∧
    (∀ (h : Modbus) gtx oracle, h.state = .Disconnected →
      (∀ a b c, (ReadCoils h gtx a b c oracle).hndl = h) ∧
      (∀ a b c, (ReadDiscreteInputs h gtx a b c oracle).hndl = h) ∧
      (∀ a b c, (ReadMultipleHoldingRegisters h gtx a b c oracle).hndl = h) ∧
      (∀ a b c, (ReadInputRegisters h gtx a b c oracle).hndl = h) ∧
      (∀ a b bit, (WriteSingleCoil h gtx a b bit oracle).hndl = h) ∧
      (∀ a b c, (WriteSingleHoldingRegister h gtx a b c oracle).hndl = h) ∧
      (∀ a b c arr, (WriteMultipleCoils h gtx a b c arr oracle).hndl = h) ∧
      (∀ a b c arr, (WriteMultipleHoldingRegisters h gtx a b c arr oracle).hndl = h) ∧
      (∀ a arr len, (ReadFile h gtx a arr len oracle).hndl = h) ∧
      (∀ a arr len, (WriteFile h gtx a arr len oracle).hndl = h)) ∧
    (∀ (h : Modbus) (t fuel : Nat), h.state = .Disconnected →
      WaitForData h t fuel = some (false, {h with state := .Idle}, 0)) := by
  have hne : ∀ h : Modbus, h.state = .Disconnected → h.state ≠ .Idle := by
    intro h hd
    rw [hd]
    decide
  refine ⟨?_, ?_, ?_⟩
  · intro h inEv hupEv msg hd
    unfold EpollStep
    rw [if_pos hd]
  · intro h gtx oracle hd
    refine ⟨?_, ?_, ?_, ?_, ?_, ?_, ?_, ?_, ?_, ?_⟩ <;> intro a b c <;>
      first
      | (simp only [ReadCoils, ReadDiscreteInputs, ReadMultipleHoldingRegisters,
          ReadInputRegisters, WriteSingleCoil, WriteSingleHoldingRegister,
          ReadFile, WriteFile]
         rw [if_pos (hne h hd)])
      | (intro d
         simp only [WriteMultipleCoils, WriteMultipleHoldingRegisters]
         rw [if_pos (hne h hd)])
  · intro h t fuel hd
    unfold WaitForData
    rw [if_pos (by simp [hd])]
    simp [hd]

theorem c6_amended_witness :
    EpollStep ⟨.tcp, 3, 2, .Disconnected, 0, false, [7], [8]⟩ true true [1, 2, 3] =
      ⟨.tcp, 3, 2, .Disconnected, 0, false, [7], [8]⟩ ∧
    (ReadCoils ⟨.tcp, 3, 2, .Disconnected, 0, false, [7], [8]⟩ 0 1 10 4
        ⟨true, none⟩).hndl = ⟨.tcp, 3, 2, .Disconnected, 0, false, [7], [8]⟩ := by
  refine ⟨c6_amended.1 _ true true [1, 2, 3] rfl, ?_⟩
  exact ((c6_amended.2.1 ⟨.tcp, 3, 2, .Disconnected, 0, false, [7], [8]⟩ 0
    ⟨true, none⟩ rfl).1) 1 10 4

/-! ## C9: busy-handle guard -/

/-- C9: every request primitive invoked on a handle whose state is not
`Idle` fails immediately and synchronously: it returns false with
`NotReadyReason` (`DEVICE_DISCONNECTED` when disconnected,
`HANDLE_IN_USE` otherwise) as the single output byte, hands no frame to
`send`, and leaves both the handle and the global transaction counter
unchanged. -/
theorem c9_busy_guard (hndl : Modbus) (gtx : Nat) (oracle : SendOracle)
    (hst : hndl.state ≠ .Idle) :
    (∀ a b c, ReadCoils hndl gtx a b c oracle =
      ⟨false, hndl, gtx, [], [NotReadyReason hndl]⟩) ∧
    (∀ a b c, ReadDiscreteInputs hndl gtx a b c oracle =
      ⟨false, hndl, gtx, [], [NotReadyReason hndl]⟩) ∧
    (∀ a b c, ReadMultipleHoldingRegisters hndl gtx a b c oracle =
      ⟨false, hndl, gtx, [], [NotReadyReason hndl]⟩) ∧
    (∀ a b c, ReadInputRegisters hndl gtx a b c oracle =
      ⟨false, hndl, gtx, [], [NotReadyReason hndl]⟩) ∧
    (∀ a b bit, WriteSingleCoil hndl gtx a b bit oracle =
      ⟨false, hndl, gtx, [], [NotReadyReason hndl]⟩) ∧
    (∀ a b c, WriteSingleHoldingRegister hndl gtx a b c oracle =
      ⟨false, hndl, gtx, [], [NotReadyReason hndl]⟩) ∧
    (∀ a b c arr, WriteMultipleCoils hndl gtx a b c arr oracle =
      ⟨false, hndl, gtx, [], [NotReadyReason hndl]⟩) ∧
    (∀ a b c arr, WriteMultipleHoldingRegisters hndl gtx a b c arr oracle =
      ⟨false, hndl, gtx, [], [NotReadyReason hndl]⟩) ∧
    (∀ a arr len, ReadFile hndl gtx a arr len oracle =
      ⟨false, hndl, gtx, [], [NotReadyReason hndl]⟩) ∧
    (∀ a arr len, WriteFile hndl gtx a arr len oracle =
      ⟨false, hndl, gtx, [], [NotReadyReason hndl]⟩) ∧
    (hndl.state = .Disconnected → NotReadyReason hndl = DEVICE_DISCONNECTED) ∧
    (hndl.state ≠ .Disconnected → NotReadyReason hndl = HANDLE_IN_USE) := by
  refine ⟨?_, ?_, ?_, ?_, ?_, ?_, ?_, ?_, ?_, ?_, ?_, ?_⟩
  · intro a b c
    simp only [ReadCoils]
    rw [if_pos hst]
  · intro a b c
    simp only [ReadDiscreteInputs]
    rw [if_pos hst]
  · intro a b c
    simp only [ReadMultipleHoldingRegisters]
    rw [if_pos hst]
  · intro a b c
    simp only [ReadInputRegisters]
    rw [if_pos hst]
  · intro a b bit
    simp only [WriteSingleCoil]
    rw [if_pos hst]
  · intro a b c
    simp only [WriteSingleHoldingRegister]
    rw [if_pos hst]
  · intro a b c arr
    simp only [WriteMultipleCoils]
    rw [if_pos hst]
  · intro a b c arr
    simp only [WriteMultipleHoldingRegisters]
    rw [if_pos hst]
  · intro a arr len
    simp only [ReadFile]
    rw [if_pos hst]
  · intro a arr len
    simp only [WriteFile]
    rw [if_pos hst]
  · intro hd
    unfold NotReadyReason
    rw [if_pos hd]
  · intro hd
    unfold NotReadyReason
    rw [if_neg hd]

theorem c9_busy_guard_witness :
    ReadCoils ⟨.tcp, 9, 8, .WaitingForResponse, 0, false, [1], [2]⟩ 5 1 100 4
        ⟨true, some [1, 1, 1, 0x0F]⟩ =
      ⟨false, ⟨.tcp, 9, 8, .WaitingForResponse, 0, false, [1], [2]⟩, 5, [],
        [HANDLE_IN_USE]⟩ := by
  have h := c9_busy_guard ⟨.tcp, 9, 8, .WaitingForResponse, 0, false, [1], [2]⟩ 5
    ⟨true, some [1, 1, 1, 0x0F]⟩ (by decide)
  rw [h.1 1 100 4]
  decide

/-! ## C8: file sub-request range validation -/

/-- C8 counterexample: a file-read sub-request with
`record_number + record_count >= 10000` (9999 + 10) is **not** rejected
locally: `ReadFile` frames and sends it (the `sent` list is non-empty),
and the local failure eventually reported (with no response arriving) is
`MODBUS_TIMEOUT`, not `ILLEGAL_DATA_ADDRESS`. -/
theorem c8_counterexample :
    10000 ≤ 9999 + 10 ∧
    (ReadFile ⟨.tcp, 0, 0, .Idle, 0, false, [], []⟩ 0 1
        (ReadFileSubRequestBuilder 4 9999 10) 7 ⟨true, none⟩).sent ≠ [] ∧
    (ReadFile ⟨.tcp, 0, 0, .Idle, 0, false, [], []⟩ 0 1
        (ReadFileSubRequestBuilder 4 9999 10) 7 ⟨true, none⟩).out =
      [ MODBUS_TIMEOUT ] ∧
    (ReadFile ⟨.tcp, 0, 0, .Idle, 0, false, [], []⟩ 0 1
        (ReadFileSubRequestBuilder 4 9999 10) 7 ⟨true, none⟩).ok = false := by
  refine ⟨by decide, by decide, by decide, by decide⟩

/-- Reassembling a 16-bit value from the two bytes the builders emit
(the C `lo | (hi << 8)` idiom). -/
lemma byte_reassemble (n : Nat) (h : n < 65536) :
    n % 256 ||| (n / 256 % 256) <<< 8 = n := by
  have h2 : n / 256 % 256 = n / 256 := Nat.mod_eq_of_lt (by omega)
  rw [h2]
  apply Nat.eq_of_testBit_eq
  intro i
  simp only [Nat.testBit_lor, Nat.testBit_shiftLeft]
  have h256 : (256 : Nat) = 2 ^ 8 := by norm_num
  have hdiv : n / 256 = n >>> 8 := by
    rw [Nat.shiftRight_eq_div_pow, h256]
  rcases Nat.lt_or_ge i 8 with h8 | h8
  · rw [h256, Nat.testBit_mod_two_pow]
    simp [h8, Nat.not_le_of_lt h8]
  · rw [hdiv, Nat.testBit_shiftRight, h256, Nat.testBit_mod_two_pow]
    have hi : 8 + (i - 8) = i := by omega
    rw [hi]
    simp [h8, Nat.not_lt_of_le h8]

/-- C8 (amended): `ReadFile` and `WriteFile` perform **no** local
validation of file sub-requests: whatever the message content — in
particular a sub-request with `recordNo + recordCount >= 10000` — the
request is framed and handed to `send` (the only local checks are the
idle guard and, for `ReadFile` only, the message size).  The
`recordNo + recordCount < 10000` range check rejecting with
`ILLEGAL_DATA_ADDRESS` lives on the slave side (`requestRead` and
`requestWrite` in the slave simulator), so the error code arrives in
the response rather than being produced locally. -/
theorem c8_amended :
    (∀ (hndl : Modbus) (gtx slaveID : Nat) (messageArray : List Nat)
        (messageLength : Nat) (oracle : SendOracle),
      hndl.state = .Idle → oracle.sendOk = true → messageLength < MAX_PDU_LENGTH →
      (ReadFile hndl gtx slaveID messageArray messageLength oracle).sent =
        [frameFor {hndl with state := .SendingRequest, pduLength := 0, isCFG := false}
          gtx ([slaveID, READ_FILE, messageLength] ++ messageArray.take messageLength)]) ∧
    (∀ (hndl : Modbus) (gtx slaveID : Nat) (messageArray : List Nat)
        (messageLength : Nat) (oracle : SendOracle),
      hndl.state = .Idle → oracle.sendOk = true →
      (WriteFile hndl gtx slaveID messageArray messageLength oracle).sent =
        [frameFor {hndl with state := .SendingRequest, pduLength := 0, isCFG := false}
          gtx ([slaveID, WRITE_FILE, messageLength] ++ messageArray.take messageLength)]) ∧
    (∀ (fileStore : Nat → Nat → Nat) (messageIn : List Nat),
      7 ≤ messageIn.getD 2 0 → messageIn.getD 2 0 ≤ 0xF5 →
      messageIn.getD 3 0 = 6 →
      10000 ≤ (messageIn.getD 7 0 ||| messageIn.getD 6 0 <<< 8) + messageIn.getD 9 0 →
      (requestRead fileStore messageIn).1 = ILLEGAL_DATA_ADDRESS) ∧
    (∀ (fileStore : Nat → Nat → Nat) (messageIn : List Nat),
      1 ≤ messageIn.getD 2 0 →
      messageIn.getD 3 0 = 6 →
      10000 ≤ (messageIn.getD 7 0 ||| messageIn.getD 6 0 <<< 8) + messageIn.getD 9 0 →
      (requestWrite fileStore messageIn).1 = ILLEGAL_DATA_ADDRESS) := by
  refine ⟨?_, ?_, ?_, ?_⟩
  · intro hndl gtx slaveID messageArray messageLength oracle hst hsend hlt
    obtain ⟨so, resp⟩ := oracle
    simp only at hsend
    subst hsend
    simp only [ReadFile]
    rw [if_neg (by simp [hst]), if_neg (not_not_intro hlt)]
    simp only [ModBusWrite, SendToSlave, if_pos]
    rcases resp with _ | pdu <;> simp only [AwaitResponse] <;> split_ifs <;> rfl
  · intro hndl gtx slaveID messageArray messageLength oracle hst hsend
    obtain ⟨so, resp⟩ := oracle
    simp only at hsend
    subst hsend
    simp only [WriteFile]
    rw [if_neg (by simp [hst])]
    simp only [ModBusWrite, SendToSlave, if_pos]
    rcases resp with _ | pdu <;> simp only [AwaitResponse] <;> split_ifs <;> rfl
  · intro fileStore messageIn h7 hF5 href h10k
    unfold requestRead
    rw [if_pos ⟨h7, hF5⟩]
    obtain ⟨c, hc⟩ : ∃ c, messageIn.getD 2 0 / 7 = c + 1 := by
      have h1 : 1 ≤ messageIn.getD 2 0 / 7 :=
        (Nat.le_div_iff_mul_le (by norm_num)).2 (by omega)
      exact ⟨messageIn.getD 2 0 / 7 - 1, by omega⟩
    rw [hc]
    unfold requestReadLoop
    have hi0 : (3 : Nat) + 7 * 0 = 3 := rfl
    have hi3 : (3 : Nat) + 7 * 0 + 3 = 6 := rfl
    have hi4 : (3 : Nat) + 7 * 0 + 4 = 7 := rfl
    have hi6 : (3 : Nat) + 7 * 0 + 6 = 9 := rfl
    simp only [hi0, hi3, hi4, hi6]
    rw [if_pos href, if_neg (by omega)]
  · intro fileStore messageIn h1 href h10k
    unfold requestWrite
    obtain ⟨c, hc⟩ : ∃ c, messageIn.getD 2 0 = c + 1 :=
      ⟨messageIn.getD 2 0 - 1, by omega⟩
    rw [hc]
    unfold requestWriteLoop
    have hj0 : (3 : Nat) + 0 = 3 := rfl
    have hj3 : (3 : Nat) + 0 + 3 = 6 := rfl
    have hj4 : (3 : Nat) + 0 + 4 = 7 := rfl
    have hj6 : (3 : Nat) + 0 + 6 = 9 := rfl
    simp only [hj0, hj3, hj4, hj6]
    rw [if_pos (by omega), if_pos href, if_neg (by omega)]

theorem c8_amended_witness :
    (ReadFile ⟨.rtuOverTcp, 0, 0, .Idle, 0, false, [], []⟩ 0 1
        (ReadFileSubRequestBuilder 4 9999 10) 7 ⟨true, none⟩).sent =
      [frameFor ⟨.rtuOverTcp, 0, 0, .SendingRequest, 0, false, [], []⟩ 0
        ([1, READ_FILE, 7] ++ ReadFileSubRequestBuilder 4 9999 10)] ∧
    (WriteFile ⟨.rtuOverTcp, 0, 0, .Idle, 0, false, [], []⟩ 0 1
        (WriteFileSubRequestBuilder 4 9999 10 (List.range 10)) 27 ⟨true, none⟩).sent =
      [frameFor ⟨.rtuOverTcp, 0, 0, .SendingRequest, 0, false, [], []⟩ 0
        ([1, WRITE_FILE, 27] ++ WriteFileSubRequestBuilder 4 9999 10 (List.range 10))] ∧
    (requestRead (fun _ _ => 0)
        ([1, 0x14, 7] ++ ReadFileSubRequestBuilder 4 9999 10)).1 =
      ILLEGAL_DATA_ADDRESS ∧
    (requestWrite (fun _ _ => 0)
        ([1, 0x15, 27] ++ WriteFileSubRequestBuilder 4 9999 10 (List.range 10))).1 =
      ILLEGAL_DATA_ADDRESS := by
  refine ⟨?_, ?_, ?_, ?_⟩
  · have h := c8_amended.1 ⟨.rtuOverTcp, 0, 0, .Idle, 0, false, [], []⟩ 0 1
      (ReadFileSubRequestBuilder 4 9999 10) 7 ⟨true, none⟩ rfl rfl (by decide)
    have htake : (ReadFileSubRequestBuilder 4 9999 10).take 7 =
        ReadFileSubRequestBuilder 4 9999 10 := by decide
    rw [htake] at h
    exact h
  · have h := c8_amended.2.1 ⟨.rtuOverTcp, 0, 0, .Idle, 0, false, [], []⟩ 0 1
      (WriteFileSubRequestBuilder 4 9999 10 (List.range 10)) 27 ⟨true, none⟩ rfl rfl
    have htake : (WriteFileSubRequestBuilder 4 9999 10 (List.range 10)).take 27 =
        WriteFileSubRequestBuilder 4 9999 10 (List.range 10) := by decide
    rw [htake] at h
    exact h
  · exact c8_amended.2.2.1 (fun _ _ => 0) _ (by decide) (by decide) (by decide) (by decide)
  · exact c8_amended.2.2.2 (fun _ _ => 0) _ (by decide) (by decide) (by decide)

/-! ## C5: CRC16 round trip and single-byte sensitivity

The table-driven `GetCRC` is related to the bit-level LSB-first division
by the reflected polynomial 0xA001; linearity of the bit step over XOR
and its injectivity give the single-byte sensitivity. -/

lemma bitStepN_add (m n v : Nat) : bitStepN (m + n) v = bitStepN m (bitStepN n v) := by
  induction n generalizing v with
  | zero => rfl
  | succ k ih =>
    show bitStepN (m + k + 1) v = _
    rw [show m + k + 1 = (m + k) + 1 from rfl]
    show bitStepN (m + k) (bitStep v) = _
    rw [ih (bitStep v)]
    rfl

set_option maxRecDepth 40000 in
/-- Each table entry is the 8-fold bit step of its index. -/
lemma crcTable_eq_bitStepN : ∀ i < 256, CRCTable.getD i 0 = bitStepN 8 i := by
  decide

set_option maxRecDepth 40000 in
lemma crcTable_lt : ∀ i < 256, CRCTable.getD i 0 < 65536 := by
  decide

lemma bitStep_lt {v : Nat} (h : v < 65536) : bitStep v < 65536 := by
  unfold bitStep
  split_ifs
  · have h1 : v / 2 < 2 ^ 16 := by omega
    have h2 : (0xA001 : Nat) < 2 ^ 16 := by norm_num
    exact Nat.xor_lt_two_pow h1 h2
  · omega

lemma bitStepN_lt {n v : Nat} (h : v < 65536) : bitStepN n v < 65536 := by
  induction n generalizing v with
  | zero => exact h
  | succ k ih => exact ih (bitStep_lt h)

lemma xor_cancel_right (a b c : Nat) : (a ^^^ c) ^^^ (b ^^^ c) = a ^^^ b := by
  rw [Nat.xor_assoc, Nat.xor_comm c (b ^^^ c), Nat.xor_assoc b c c, Nat.xor_self,
    Nat.xor_zero]

lemma xor_swap_right (a b c : Nat) : (a ^^^ b) ^^^ c = (a ^^^ c) ^^^ b := by
  rw [Nat.xor_assoc, Nat.xor_comm b c, ← Nat.xor_assoc]

/-- The bit step is linear over XOR. -/
lemma bitStep_xor (x y : Nat) : bitStep (x ^^^ y) = bitStep x ^^^ bitStep y := by
  have hdiv : (x ^^^ y) / 2 = x / 2 ^^^ y / 2 := Nat.xor_div_two
  have hmod : ∀ a : Nat, a % 2 = 0 ∨ a % 2 = 1 := fun a => Nat.mod_two_eq_zero_or_one a
  have hxy := Nat.xor_mod_two_eq_one (a := x) (b := y)
  rcases hmod x with hx | hx <;> rcases hmod y with hy | hy
  · have hp : (x ^^^ y) % 2 = 0 := by
      rcases hmod (x ^^^ y) with h | h
      · exact h
      · exact absurd (hxy.mp h) (by simp [hx, hy])
    simp only [bitStep, hp, hx, hy]
    norm_num [hdiv]
  · have hp : (x ^^^ y) % 2 = 1 := by
      rcases hmod (x ^^^ y) with h | h
      · have hiff := Decidable.not_not.mp (mt hxy.mpr (by omega))
        simp [hx, hy] at hiff
      · exact h
    simp only [bitStep, hp, hx, hy]
    norm_num [hdiv, Nat.xor_assoc]
  · have hp : (x ^^^ y) % 2 = 1 := by
      rcases hmod (x ^^^ y) with h | h
      · have hiff := Decidable.not_not.mp (mt hxy.mpr (by omega))
        simp [hx, hy] at hiff
      · exact h
    simp only [bitStep, hp, hx, hy]
    norm_num [hdiv]
    rw [xor_swap_right]
  · have hp : (x ^^^ y) % 2 = 0 := by
      rcases hmod (x ^^^ y) with h | h
      · exact h
      · exact absurd (hxy.mp h) (by simp [hx, hy])
    simp only [bitStep, hp, hx, hy]
    norm_num [hdiv]
    rw [xor_cancel_right]

lemma bitStepN_xor (n x y : Nat) :
    bitStepN n (x ^^^ y) = bitStepN n x ^^^ bitStepN n y := by
  induction n generalizing x y with
  | zero => rfl
  | succ k ih =>
    show bitStepN k (bitStep (x ^^^ y)) = _
    rw [bitStep_xor, ih]
    rfl

lemma bitStep_eq_zero {v : Nat} (hlt : v < 65536) (h : bitStep v = 0) : v = 0 := by
  unfold bitStep at h
  by_cases hp : v % 2 = 1
  · rw [if_pos hp] at h
    have : v / 2 = 0xA001 := by
      have := Nat.xor_eq_zero.mp h
      exact this
    omega
  · rw [if_neg hp] at h
    omega

lemma bitStepN_ne_zero {n v : Nat} (hlt : v < 65536) (hv : v ≠ 0) :
    bitStepN n v ≠ 0 := by
  induction n generalizing v with
  | zero => exact hv
  | succ k ih =>
    show bitStepN k (bitStep v) ≠ 0
    exact ih (bitStep_lt hlt) (fun h0 => hv (bitStep_eq_zero hlt h0))

lemma xor_split_byte (v : Nat) : v % 256 ^^^ (v >>> 8) <<< 8 = v := by
  apply Nat.eq_of_testBit_eq
  intro i
  have h256 : (256 : Nat) = 2 ^ 8 := by norm_num
  rw [h256]
  simp only [Nat.testBit_xor, Nat.testBit_shiftLeft, Nat.testBit_shiftRight,
    Nat.testBit_mod_two_pow]
  rcases Nat.lt_or_ge i 8 with h8 | h8
  · simp [h8, Nat.not_le_of_lt h8]
  · have hi : 8 + (i - 8) = i := by omega
    simp [h8, Nat.not_lt_of_le h8, hi]

lemma xor_mod_256 (x y : Nat) : (x ^^^ y) % 256 = x % 256 ^^^ y % 256 := by
  apply Nat.eq_of_testBit_eq
  intro i
  have h256 : (256 : Nat) = 2 ^ 8 := by norm_num
  rw [h256]
  simp only [Nat.testBit_mod_two_pow, Nat.testBit_xor]
  rcases Nat.lt_or_ge i 8 with h8 | h8 <;> simp [h8, Nat.not_lt_of_le, Nat.not_le_of_lt]

lemma xor_shiftRight_8 (x y : Nat) : (x ^^^ y) >>> 8 = x >>> 8 ^^^ y >>> 8 := by
  apply Nat.eq_of_testBit_eq
  intro i
  simp only [Nat.testBit_shiftRight, Nat.testBit_xor]

lemma bitStepN_shiftLeft : ∀ (n h : Nat), bitStepN n (h <<< n) = h := by
  intro n
  induction n with
  | zero =>
    intro h
    rw [Nat.shiftLeft_zero]
    rfl
  | succ k ih =>
    intro h
    have hstep : bitStep (h <<< (k + 1)) = h <<< k := by
      unfold bitStep
      have heq : h <<< (k + 1) = h <<< k * 2 := by
        rw [Nat.shiftLeft_eq, Nat.shiftLeft_eq, Nat.pow_succ, ← Nat.mul_assoc]
      rw [heq]
      rw [if_neg (by omega)]
      omega
    show bitStepN k (bitStep (h <<< (k + 1))) = h
    rw [hstep, ih]

/-- Splitting eight bit steps into the high-byte shift and the table part. -/
lemma bitStepN8_decomp (v : Nat) : bitStepN 8 v = v >>> 8 ^^^ bitStepN 8 (v % 256) := by
  conv_lhs => rw [← xor_split_byte v]
  rw [bitStepN_xor, bitStepN_shiftLeft, Nat.xor_comm]

/-- The table-driven byte step equals eight bit steps on the state XOR
the incoming byte. -/
lemma crcStepByte_eq (v b : Nat) : crcStepByte v b = bitStepN 8 (v ^^^ b % 256) := by
  unfold crcStepByte
  have hlt : (b ^^^ v) % 256 < 256 := Nat.mod_lt _ (by norm_num)
  rw [crcTable_eq_bitStepN _ hlt]
  rw [bitStepN8_decomp (v ^^^ b % 256)]
  congr 1
  · rw [xor_shiftRight_8]
    have : (b % 256) >>> 8 = 0 := by
      rw [Nat.shiftRight_eq_div_pow]
      have : b % 256 < 256 := Nat.mod_lt _ (by norm_num)
      omega
    rw [this, Nat.xor_zero]
  · congr 1
    rw [xor_mod_256, xor_mod_256, Nat.mod_mod_of_dvd b (dvd_refl 256), Nat.xor_comm]

lemma crcStepByte_lt {v : Nat} (b : Nat) (h : v < 65536) : crcStepByte v b < 65536 := by
  rw [crcStepByte_eq]
  refine bitStepN_lt ?_
  have h1 : v < 2 ^ 16 := h
  have h2 : b % 256 < 2 ^ 16 := by
    have : b % 256 < 256 := Nat.mod_lt _ (by norm_num)
    omega
  exact Nat.xor_lt_two_pow h1 h2

lemma foldl_crc_lt (l : List Nat) : ∀ v, v < 65536 → l.foldl crcStepByte v < 65536 := by
  induction l with
  | nil => intro v h; exact h
  | cons c cs ih => intro v h; exact ih _ (crcStepByte_lt c h)

lemma GetCRC_lt (msg : List Nat) : GetCRC msg < 65536 :=
  foldl_crc_lt msg 0xFFFF (by norm_num)

lemma foldl_crc_xor (l : List Nat) :
    ∀ v1 v2, v1 < 65536 → v2 < 65536 →
      l.foldl crcStepByte v1 ^^^ l.foldl crcStepByte v2 =
        bitStepN (8 * l.length) (v1 ^^^ v2) := by
  induction l with
  | nil =>
    intro v1 v2 _ _
    rfl
  | cons c cs ih =>
    intro v1 v2 h1 h2
    show cs.foldl crcStepByte (crcStepByte v1 c) ^^^
        cs.foldl crcStepByte (crcStepByte v2 c) = _
    rw [ih _ _ (crcStepByte_lt c h1) (crcStepByte_lt c h2)]
    have hstep : crcStepByte v1 c ^^^ crcStepByte v2 c = bitStepN 8 (v1 ^^^ v2) := by
      rw [crcStepByte_eq, crcStepByte_eq, ← bitStepN_xor, xor_cancel_right]
    rw [hstep, ← bitStepN_add]
    congr 1

lemma xor_cancel_left (a b c : Nat) : (c ^^^ a) ^^^ (c ^^^ b) = a ^^^ b := by
  rw [Nat.xor_comm c a, Nat.xor_comm c b, xor_cancel_right]

/-- Changing one byte of a message (to a different byte value) always
changes its CRC16: the difference of the two CRCs is a nonzero state
pushed through an injective linear map. -/
lemma GetCRC_ne_of_set (b : List Nat) (i : Nat) (hi : i < b.length)
    (hb : ∀ x ∈ b, x < 256) (c : Nat) (hc : c < 256) (hne : c ≠ b.getD i 0) :
    GetCRC (b.set i c) ≠ GetCRC b := by
  have hd_mem : b.getD i 0 ∈ b := by
    rw [List.getD_eq_getElem b 0 hi]
    exact List.getElem_mem _
  have hd : b.getD i 0 < 256 := hb _ hd_mem
  have hset : b.set i c = b.take i ++ c :: b.drop (i + 1) :=
    List.set_eq_take_cons_drop c hi
  have hsplit : b.take i ++ b.getD i 0 :: b.drop (i + 1) = b := by
    rw [List.getD_eq_getElem b 0 hi, List.getElem_cons_drop, List.take_append_drop]
  have hvlt : (b.take i).foldl crcStepByte 0xFFFF < 65536 :=
    foldl_crc_lt _ _ (by norm_num)
  have h1 : GetCRC (b.set i c) = (b.drop (i + 1)).foldl crcStepByte
      (crcStepByte ((b.take i).foldl crcStepByte 0xFFFF) c) := by
    rw [hset]
    unfold GetCRC
    rw [List.foldl_append]
    rfl
  have h2 : GetCRC b = (b.drop (i + 1)).foldl crcStepByte
      (crcStepByte ((b.take i).foldl crcStepByte 0xFFFF) (b.getD i 0)) := by
    conv_lhs => rw [← hsplit]
    unfold GetCRC
    rw [List.foldl_append]
    rfl
  have hinner : crcStepByte ((b.take i).foldl crcStepByte 0xFFFF) c ^^^
      crcStepByte ((b.take i).foldl crcStepByte 0xFFFF) (b.getD i 0) =
      bitStepN 8 (c ^^^ b.getD i 0) := by
    rw [crcStepByte_eq, crcStepByte_eq, ← bitStepN_xor, xor_cancel_left,
      Nat.mod_eq_of_lt hc, Nat.mod_eq_of_lt hd]
  have hne0 : c ^^^ b.getD i 0 ≠ 0 := fun h0 => hne (Nat.xor_eq_zero.mp h0)
  have hlt2 : c ^^^ b.getD i 0 < 65536 :=
    Nat.xor_lt_two_pow (n := 16) (by omega) (by omega)
  intro heq
  have hzero : GetCRC (b.set i c) ^^^ GetCRC b = 0 := by
    rw [heq, Nat.xor_self]
  rw [h1, h2, foldl_crc_xor _ _ _ (crcStepByte_lt _ hvlt) (crcStepByte_lt _ hvlt),
    hinner, ← bitStepN_add] at hzero
  exact bitStepN_ne_zero hlt2 hne0 hzero

lemma validateCRC_iff (msg : List Nat) :
    ValidateCRC msg = true ↔
      2 ≤ msg.length ∧
      msg.getD (msg.length - 2) 0 = GetCRC (msg.take (msg.length - 2)) % 256 ∧
      msg.getD (msg.length - 1) 0 =
        (GetCRC (msg.take (msg.length - 2)) >>> 8) % 256 := by
  unfold ValidateCRC
  simp [Bool.and_eq_true, decide_eq_true_eq, and_assoc]

/-- C5: CRC16 round trip and checksum sensitivity for the
modbuscommands.c implementation.  When the buffer can hold
`length + 2` bytes, `AddCRC` appends the table-driven CRC16 (init
0xFFFF) as a little-endian trailer and the result passes validation;
changing any single byte of the CRC-appended message to a different
byte value makes validation fail; and `AddCRC` appends nothing
(returns failure) when the buffer is too small. -/
theorem c5_crc_roundtrip_sensitivity (b : List Nat) (maxLen : Nat)
    (hb : ∀ x ∈ b, x < 256) :
    (b.length + 2 ≤ maxLen →
      AddCRC b maxLen = some (b ++ [GetCRC b % 256, (GetCRC b >>> 8) % 256]) ∧
      ValidateCRC (b ++ [GetCRC b % 256, (GetCRC b >>> 8) % 256]) = true ∧
      (∀ i, i < b.length + 2 → ∀ c, c < 256 →
        c ≠ (b ++ [GetCRC b % 256, (GetCRC b >>> 8) % 256]).getD i 0 →
        ValidateCRC ((b ++ [GetCRC b % 256, (GetCRC b >>> 8) % 256]).set i c) =
          false)) ∧
    (maxLen < b.length + 2 → AddCRC b maxLen = none) := by
  have hY := GetCRC_lt b
  have htake : (b ++ [GetCRC b % 256, (GetCRC b >>> 8) % 256]).take b.length = b :=
    List.take_left' rfl
  have hgetn : (b ++ [GetCRC b % 256, (GetCRC b >>> 8) % 256]).getD b.length 0 =
      GetCRC b % 256 := by
    rw [List.getD_append_right _ _ _ _ (le_refl _)]
    simp
  have hgetn1 : (b ++ [GetCRC b % 256, (GetCRC b >>> 8) % 256]).getD
      (b.length + 1) 0 = (GetCRC b >>> 8) % 256 := by
    rw [List.getD_append_right _ _ _ _ (by omega)]
    rw [show b.length + 1 - b.length = 1 from by omega]
    simp
  constructor
  · intro hcap
    refine ⟨?_, ?_, ?_⟩
    · unfold AddCRC
      rw [if_pos (by omega)]
    · rw [validateCRC_iff]
      have hlen : (b ++ [GetCRC b % 256, (GetCRC b >>> 8) % 256]).length =
          b.length + 2 := by simp
      rw [hlen, show b.length + 2 - 2 = b.length from by omega,
        show b.length + 2 - 1 = b.length + 1 from by omega, htake, hgetn, hgetn1]
      exact ⟨by omega, rfl, rfl⟩
    · intro i hilt c hc hne
      by_cases hcase1 : i < b.length
      · -- a data byte was changed: the recomputed CRC differs
        have hset : (b ++ [GetCRC b % 256, (GetCRC b >>> 8) % 256]).set i c =
            b.set i c ++ [GetCRC b % 256, (GetCRC b >>> 8) % 256] :=
          List.set_append_left _ _ hcase1
        have hne' : c ≠ b.getD i 0 := by
          rwa [List.getD_append _ _ _ _ hcase1] at hne
        have hcrcne : GetCRC (b.set i c) ≠ GetCRC b :=
          GetCRC_ne_of_set b i hcase1 hb c hc hne'
        cases hvb : ValidateCRC
            ((b ++ [GetCRC b % 256, (GetCRC b >>> 8) % 256]).set i c) with
        | false => rfl
        | true =>
          exfalso
          rw [hset, validateCRC_iff] at hvb
          obtain ⟨-, h1, h2⟩ := hvb
          have hlen2 : (b.set i c ++
              [GetCRC b % 256, (GetCRC b >>> 8) % 256]).length = b.length + 2 := by
            simp
          rw [hlen2, show b.length + 2 - 2 = b.length from by omega] at h1
          rw [hlen2, show b.length + 2 - 2 = b.length from by omega,
            show b.length + 2 - 1 = b.length + 1 from by omega] at h2
          have htk2 : (b.set i c ++
              [GetCRC b % 256, (GetCRC b >>> 8) % 256]).take b.length = b.set i c :=
            List.take_left' (by simp)
          have hg2 : (b.set i c ++
              [GetCRC b % 256, (GetCRC b >>> 8) % 256]).getD b.length 0 =
              GetCRC b % 256 := by
            rw [List.getD_append_right _ _ _ _ (by simp)]
            simp
          have hg3 : (b.set i c ++
              [GetCRC b % 256, (GetCRC b >>> 8) % 256]).getD (b.length + 1) 0 =
              (GetCRC b >>> 8) % 256 := by
            rw [List.getD_append_right _ _ _ _ (by simp)]
            rw [show b.length + 1 - (b.set i c).length = 1 from by simp]
            simp
          rw [htk2, hg2] at h1
          rw [htk2, hg3] at h2
          have hX := GetCRC_lt (b.set i c)
          rw [Nat.shiftRight_eq_div_pow, Nat.shiftRight_eq_div_pow] at h2
          have h28 : (2 : Nat) ^ 8 = 256 := by norm_num
          rw [h28] at h2
          exact hcrcne (by omega)
      · -- a trailer byte was changed: the comparison with the CRC fails
        have hge : b.length ≤ i := Nat.le_of_not_lt hcase1
        have hset2 : (b ++ [GetCRC b % 256, (GetCRC b >>> 8) % 256]).set i c =
            b ++ ([GetCRC b % 256, (GetCRC b >>> 8) % 256].set (i - b.length) c) :=
          List.set_append_right _ _ hge
        by_cases hcase2 : i = b.length
        · subst hcase2
          rw [show b.length - b.length = 0 from by omega] at hset2
          have hne2 : c ≠ GetCRC b % 256 := by rwa [hgetn] at hne
          cases hvb : ValidateCRC
              ((b ++ [GetCRC b % 256, (GetCRC b >>> 8) % 256]).set b.length c) with
          | false => rfl
          | true =>
            exfalso
            rw [hset2, validateCRC_iff] at hvb
            obtain ⟨-, h1, -⟩ := hvb
            simp only [List.set] at h1
            have hlen3 : (b ++ [c, (GetCRC b >>> 8) % 256]).length = b.length + 2 := by
              simp
            rw [hlen3, show b.length + 2 - 2 = b.length from by omega] at h1
            have htk3 : (b ++ [c, (GetCRC b >>> 8) % 256]).take b.length = b :=
              List.take_left' rfl
            have hg4 : (b ++ [c, (GetCRC b >>> 8) % 256]).getD b.length 0 = c := by
              rw [List.getD_append_right _ _ _ _ (le_refl _)]
              simp
            rw [htk3, hg4] at h1
            exact hne2 h1
        · have hieq : i = b.length + 1 := by omega
          subst hieq
          rw [show b.length + 1 - b.length = 1 from by omega] at hset2
          have hne3 : c ≠ (GetCRC b >>> 8) % 256 := by rwa [hgetn1] at hne
          cases hvb : ValidateCRC
              ((b ++ [GetCRC b % 256, (GetCRC b >>> 8) % 256]).set (b.length + 1) c) with
          | false => rfl
          | true =>
            exfalso
            rw [hset2, validateCRC_iff] at hvb
            obtain ⟨-, -, h2⟩ := hvb
            simp only [List.set] at h2
            have hlen4 : (b ++ [GetCRC b % 256, c]).length = b.length + 2 := by simp
            rw [hlen4, show b.length + 2 - 2 = b.length from by omega,
              show b.length + 2 - 1 = b.length + 1 from by omega] at h2
            have htk4 : (b ++ [GetCRC b % 256, c]).take b.length = b :=
              List.take_left' rfl
            have hg5 : (b ++ [GetCRC b % 256, c]).getD (b.length + 1) 0 = c := by
              rw [List.getD_append_right _ _ _ _ (by omega)]
              rw [show b.length + 1 - b.length = 1 from by omega]
              simp
            rw [htk4, hg5] at h2
            exact hne3 h2
  · intro hover
    unfold AddCRC
    rw [if_neg (by omega)]

theorem c5_crc_witness :
    AddCRC [1, 4, 2, 255, 255] 10 =
      some ([1, 4, 2, 255, 255] ++ [GetCRC [1, 4, 2, 255, 255] % 256,
        (GetCRC [1, 4, 2, 255, 255] >>> 8) % 256]) ∧
    ValidateCRC ([1, 4, 2, 255, 255] ++ [GetCRC [1, 4, 2, 255, 255] % 256,
      (GetCRC [1, 4, 2, 255, 255] >>> 8) % 256]) = true ∧
    ValidateCRC (([1, 4, 2, 255, 255] ++ [GetCRC [1, 4, 2, 255, 255] % 256,
      (GetCRC [1, 4, 2, 255, 255] >>> 8) % 256]).set 0 9) = false ∧
    AddCRC [1, 4, 2, 255, 255] 3 = none := by
  have h := c5_crc_roundtrip_sensitivity [1, 4, 2, 255, 255] 10 (by decide)
  have h3 := c5_crc_roundtrip_sensitivity [1, 4, 2, 255, 255] 3 (by decide)
  have hmain := h.1 (by decide)
  exact ⟨hmain.1, hmain.2.1, hmain.2.2 0 (by decide) 9 (by decide) (by decide),
    h3.2 (by decide)⟩

/-! ## C2: reassembly is transparent to fragmentation (tcp, rtuOverTcp) -/

lemma pduMessageLengthOf_rtuOverTcp (h : Modbus) (b : List Nat)
    (hty : h.type = .rtuOverTcp) (hcfg : h.isCFG = false) (hmin : 5 ≤ b.length) :
    pduMessageLengthOf h b = GetFcodeLength (b.getD 1 0) (b.getD 2 0) := by
  unfold pduMessageLengthOf
  rw [if_pos, hcfg]
  · simp [hty, fCodeOffsetOf, pduLengthOffsetOf]
  · left
    rw [hty]
    simp only [minLengthOf, CRC_FOOTER_LENGTH, PDU_HEADER_LENGTH]
    omega

/-- On a strict prefix of the frame, the reassembler reports `waiting`
and just extends the accumulation buffer. -/
lemma processBuffer_strict_partial (h : Modbus) (p rest F : List Nat)
    (htype : h.type = .tcp ∨ h.type = .rtuOverTcp) (hcfg : h.isCFG = false)
    (happ : p ++ rest = F) (hplt : p.length < F.length)
    (hlen : F.length =
      GetFcodeLength (F.getD (fCodeOffsetOf h.type) 0)
        (F.getD (pduLengthOffsetOf h.type) 0) +
      transportHeaderLengthOf h.type + transportFooterLengthOf h.type) :
    processBuffer h p = ({h with bufferedMessage := p}, .waiting) := by
  have hnotfull : ¬ fullMessageAvailable h p := by
    rintro ⟨hgate, htot⟩
    have hnr : h.type ≠ .rtu := by
      rcases htype with hty | hty <;> rw [hty] <;> exact fun hc => by cases hc
    rcases hgate with hminle | hrtu
    · have hoff1 : fCodeOffsetOf h.type < minLengthOf h.type := by
        rcases htype with hty | hty <;>
          simp [hty, fCodeOffsetOf, minLengthOf, TCP_HEADER_LENGTH,
            PDU_HEADER_LENGTH, CRC_FOOTER_LENGTH, MESSAGE_HEADER_LENGTH]
      have hoff2 : pduLengthOffsetOf h.type < minLengthOf h.type := by
        rcases htype with hty | hty <;>
          simp [hty, pduLengthOffsetOf, fCodeOffsetOf, minLengthOf,
            TCP_HEADER_LENGTH, PDU_HEADER_LENGTH, CRC_FOOTER_LENGTH,
            MESSAGE_HEADER_LENGTH]
      have hg1 : p.getD (fCodeOffsetOf h.type) 0 = F.getD (fCodeOffsetOf h.type) 0 := by
        rw [← happ, List.getD_append _ _ _ _ (by omega)]
      have hg2 : p.getD (pduLengthOffsetOf h.type) 0 =
          F.getD (pduLengthOffsetOf h.type) 0 := by
        rw [← happ, List.getD_append _ _ _ _ (by omega)]
      have hpm : pduMessageLengthOf h p =
          GetFcodeLength (F.getD (fCodeOffsetOf h.type) 0)
            (F.getD (pduLengthOffsetOf h.type) 0) := by
        unfold pduMessageLengthOf
        rw [if_pos (Or.inl hminle), hcfg]
        simp only [Bool.false_eq_true, if_false]
        rw [hg1, hg2]
      have htot2 : totalLengthOf h p = F.length := by
        unfold totalLengthOf
        rw [hpm, ← hlen]
      rw [htot2] at htot
      omega
    · exact hnr hrtu
  unfold processBuffer
  rw [if_neg hnotfull]

/-- Chunked feeding from a strict prefix of the frame reaches the same
result as processing the whole frame. -/
lemma feedAll_from_partial (h : Modbus) (F : List Nat)
    (htype : h.type = .tcp ∨ h.type = .rtuOverTcp)
    (hst : h.state = .WaitingForResponse) (hcfg : h.isCFG = false)
    (hcap : F.length ≤ 253)
    (hlen : F.length =
      GetFcodeLength (F.getD (fCodeOffsetOf h.type) 0)
        (F.getD (pduLengthOffsetOf h.type) 0) +
      transportHeaderLengthOf h.type + transportFooterLengthOf h.type) :
    ∀ (chunks : List (List Nat)) (p : List Nat),
      (∀ c ∈ chunks, c ≠ []) → chunks ≠ [] → p ++ chunks.flatten = F →
      feedAll {h with bufferedMessage := p} chunks = processBuffer h F := by
  intro chunks
  induction chunks with
  | nil => intro p _ hne _; exact absurd rfl hne
  | cons c rest ih =>
    intro p hcs _ hflat
    rcases rest with _ | ⟨r2, rs⟩
    · -- last chunk: the buffer becomes exactly F
      have hpc : p ++ c = F := by simpa using hflat
      have hflen : p.length + c.length = F.length := by
        have := congrArg List.length hpc
        simpa using this
      show MessageHandler {h with bufferedMessage := p} c = processBuffer h F
      unfold MessageHandler
      rw [if_neg (by simp [hst]), if_pos (by simp [MAX_PDU_LENGTH]; omega)]
      rw [show ({h with bufferedMessage := p} : Modbus).bufferedMessage = p from rfl,
        hpc, processBuffer_bufferedMessage_irrel]
    · -- an intermediate chunk: still a strict prefix, keep waiting
      have hr2ne : r2 ≠ [] := hcs r2 (by simp)
      have hflat2 : (p ++ c) ++ (r2 :: rs).flatten = F := by
        rw [← hflat]
        simp
      have hrestlen : 0 < (r2 :: rs).flatten.length := by
        have hfl : (r2 :: rs).flatten = r2 ++ rs.flatten := by simp
        rw [hfl]
        rcases r2 with _ | ⟨x, xs⟩
        · exact absurd rfl hr2ne
        · simp
      have hplen : p.length + c.length < F.length := by
        have hle := congrArg List.length hflat2
        simp only [List.length_append] at hle
        omega
      have hplt : (p ++ c).length < F.length := by
        simp only [List.length_append]
        exact hplen
      have hmh : MessageHandler {h with bufferedMessage := p} c =
          ({h with bufferedMessage := p ++ c}, .waiting) := by
        unfold MessageHandler
        rw [if_neg (by simp [hst]), if_pos (by simp [MAX_PDU_LENGTH]; omega)]
        rw [show ({h with bufferedMessage := p} : Modbus).bufferedMessage = p from rfl,
          processBuffer_bufferedMessage_irrel]
        exact processBuffer_strict_partial h (p ++ c) ((r2 :: rs).flatten) F htype
          hcfg hflat2 hplt hlen
      show List.foldl _ (MessageHandler {h with bufferedMessage := p} c) (r2 :: rs) =
        processBuffer h F
      rw [hmh]
      exact ih (p ++ c) (fun x hx => hcs x (by simp [hx])) (by simp) hflat2

/-- A complete RTU-over-TCP frame (with surplus `extra`): CRC decides
between acceptance and a frame-local discard. -/
lemma processBuffer_rtuOverTcp_full (h : Modbus) (F extra : List Nat)
    (hty : h.type = .rtuOverTcp) (hcfg : h.isCFG = false)
    (hmin : 5 ≤ F.length)
    (hlen : F.length = GetFcodeLength (F.getD 1 0) (F.getD 2 0) + 2)
    (hpml : GetFcodeLength (F.getD 1 0) (F.getD 2 0) ≤ 254) :
    processBuffer h (F ++ extra) =
      if ValidateCRC F = true then
        ({h with pduLength := GetFcodeLength (F.getD 1 0) (F.getD 2 0),
                 lastTransactionId := F.getD 0 0 * 256 + F.getD 1 0,
                 pdu := F.take (GetFcodeLength (F.getD 1 0) (F.getD 2 0)),
                 bufferedMessage := extra}, .success)
      else ({h with bufferedMessage := extra}, .waiting) := by
  have h1 : (F ++ extra).getD 1 0 = F.getD 1 0 := List.getD_append _ _ _ _ (by omega)
  have h2 : (F ++ extra).getD 2 0 = F.getD 2 0 := List.getD_append _ _ _ _ (by omega)
  have h0 : (F ++ extra).getD 0 0 = F.getD 0 0 := List.getD_append _ _ _ _ (by omega)
  have hlapp : (F ++ extra).length = F.length + extra.length := List.length_append _ _
  have hpm : pduMessageLengthOf h (F ++ extra) =
      GetFcodeLength (F.getD 1 0) (F.getD 2 0) := by
    rw [pduMessageLengthOf_rtuOverTcp h _ hty hcfg (by omega), h1, h2]
  have htot : totalLengthOf h (F ++ extra) =
      GetFcodeLength (F.getD 1 0) (F.getD 2 0) + 2 := by
    unfold totalLengthOf
    rw [hpm, hty]
    simp [transportHeaderLengthOf, transportFooterLengthOf, CRC_FOOTER_LENGTH]
  have hfull : fullMessageAvailable h (F ++ extra) := by
    refine ⟨Or.inl ?_, ?_⟩
    · rw [hty]
      simp only [minLengthOf, CRC_FOOTER_LENGTH, PDU_HEADER_LENGTH]
      omega
    · rw [htot]
      omega
  have htakeCRC : (F ++ extra).take
      (GetFcodeLength (F.getD 1 0) (F.getD 2 0) + CRC_FOOTER_LENGTH) = F := by
    apply List.take_left'
    simp only [CRC_FOOTER_LENGTH]
    omega
  have htakePdu : ((F ++ extra).drop 0).take
      (GetFcodeLength (F.getD 1 0) (F.getD 2 0)) =
      F.take (GetFcodeLength (F.getD 1 0) (F.getD 2 0)) := by
    rw [List.drop_zero, List.take_append_of_le_length (by omega)]
  have hdropTot : (F ++ extra).drop
      (GetFcodeLength (F.getD 1 0) (F.getD 2 0) + 2) = extra :=
    List.drop_left' (by omega)
  rcases hvc : ValidateCRC F with _ | _ <;>
    simp only [processBuffer, hpm, htot, h0, h1, hty, checkTransactionOf, checkCRCOf,
      transportHeaderLengthOf, MAX_PDU_LENGTH, htakeCRC, htakePdu, hdropTot, hvc,
      Bool.false_eq_true, if_false, reduceCtorEq, true_and, true_iff, not_true,
      not_false_eq_true, and_true, and_false, false_and, not_false_iff] <;>
    rw [if_pos hfull]
  rw [if_pos hpml, if_true]

/-- C2 (amended): for the `tcp` and `rtuOverTcp` transports,
reassembly is transparent to fragmentation: feeding a complete frame
`F` as any partition into consecutive non-empty chunks produces exactly
the same handle (pdu, pduLength, buffers) and the same final outcome as
feeding `F` in one call; and when the frame is valid (matching
transaction id for `tcp`, passing CRC for `rtuOverTcp`) that common
outcome is `success` with the PDU extracted from `F`.  (For the `rtu`
transport the statement fails, see the counterexample.) -/
theorem c2_amended (h : Modbus) (F : List Nat)
    (htype : h.type = .tcp ∨ h.type = .rtuOverTcp)
    (hst : h.state = .WaitingForResponse) (hbuf : h.bufferedMessage = [])
    (hcfg : h.isCFG = false) (hcap : F.length ≤ 253)
    (hmin : minLengthOf h.type ≤ F.length)
    (hlen : F.length =
      GetFcodeLength (F.getD (fCodeOffsetOf h.type) 0)
        (F.getD (pduLengthOffsetOf h.type) 0) +
      transportHeaderLengthOf h.type + transportFooterLengthOf h.type) :
    (∀ chunks : List (List Nat), (∀ c ∈ chunks, c ≠ []) → chunks ≠ [] →
      chunks.flatten = F → feedAll h chunks = MessageHandler h F) ∧
    (h.type = .tcp → F.getD 0 0 * 256 + F.getD 1 0 = h.transactionId →
      MessageHandler h F =
        ({h with pduLength := GetFcodeLength (F.getD 7 0) (F.getD 8 0),
                 lastTransactionId := h.transactionId,
                 pdu := F.drop 6, bufferedMessage := []}, .success)) ∧
    (h.type = .rtuOverTcp → ValidateCRC F = true →
      MessageHandler h F =
        ({h with pduLength := GetFcodeLength (F.getD 1 0) (F.getD 2 0),
                 lastTransactionId := F.getD 0 0 * 256 + F.getD 1 0,
                 pdu := F.take (GetFcodeLength (F.getD 1 0) (F.getD 2 0)),
                 bufferedMessage := []}, .success)) := by
  have hsingle : MessageHandler h F = processBuffer h F := by
    unfold MessageHandler
    rw [if_neg (by simp [hst]),
      if_pos (by rw [hbuf]; simp only [List.length_nil, MAX_PDU_LENGTH]; omega),
      hbuf, List.nil_append]
  have hh : ({h with bufferedMessage := []} : Modbus) = h := by rw [← hbuf]
  refine ⟨?_, ?_, ?_⟩
  · intro chunks hne hnonempty hflat
    have := feedAll_from_partial h F htype hst hcfg hcap hlen chunks [] hne
      hnonempty (by simpa using hflat)
    rw [hh] at this
    rw [hsingle, this]
  · intro hty htx
    have hmin9 : 9 ≤ F.length := by
      rw [hty] at hmin
      simpa [minLengthOf, TCP_HEADER_LENGTH, PDU_HEADER_LENGTH] using hmin
    have hlen6 : F.length = GetFcodeLength (F.getD 7 0) (F.getD 8 0) + 6 := by
      rw [hty] at hlen
      simpa [fCodeOffsetOf, pduLengthOffsetOf, transportHeaderLengthOf,
        transportFooterLengthOf, TCP_HEADER_LENGTH] using hlen
    have hfull := processBuffer_tcp_full h F [] hty hcfg hmin9 hlen6 (by omega)
    rw [List.append_nil] at hfull
    rw [hsingle, hfull,
      ((correlate_cases h.transactionId h.lastTransactionId _).1).2 htx]
    rw [htx]
  · intro hty hcrc
    have hmin5 : 5 ≤ F.length := by
      rw [hty] at hmin
      simpa [minLengthOf, CRC_FOOTER_LENGTH, PDU_HEADER_LENGTH] using hmin
    have hlen2 : F.length = GetFcodeLength (F.getD 1 0) (F.getD 2 0) + 2 := by
      rw [hty] at hlen
      simpa [fCodeOffsetOf, pduLengthOffsetOf, transportHeaderLengthOf,
        transportFooterLengthOf, CRC_FOOTER_LENGTH] using hlen
    have hfull := processBuffer_rtuOverTcp_full h F [] hty hcfg hmin5 hlen2 (by omega)
    rw [List.append_nil] at hfull
    rw [hsingle, hfull, if_pos hcrc]

/-- C2 (counterexample): for the `rtu` transport the minimum-length gate
is bypassed (`bufferedMessageLength >= minLength || type == rtu`), so a
chunk boundary after the 4-byte transport header makes the handler
compute a zero PDU length from out-of-range reads and report a premature
empty `success`: feeding the frame whole yields pdu
`[1, 1, 2, 171, 205]` of length 5, feeding it as two chunks yields an
empty pdu of length 0. -/
theorem c2_counterexample :
    (([[2, 1, 4, 0], [1, 1, 2, 171, 205]] : List (List Nat)).flatten =
      [2, 1, 4, 0, 1, 1, 2, 171, 205]) ∧
    (MessageHandler ⟨.rtu, 0, 0, .WaitingForResponse, 0, false, [], []⟩
        [2, 1, 4, 0, 1, 1, 2, 171, 205]).2 = .success ∧
    (MessageHandler ⟨.rtu, 0, 0, .WaitingForResponse, 0, false, [], []⟩
        [2, 1, 4, 0, 1, 1, 2, 171, 205]).1.pduLength = 5 ∧
    (MessageHandler ⟨.rtu, 0, 0, .WaitingForResponse, 0, false, [], []⟩
        [2, 1, 4, 0, 1, 1, 2, 171, 205]).1.pdu = [1, 1, 2, 171, 205] ∧
    (feedAll ⟨.rtu, 0, 0, .WaitingForResponse, 0, false, [], []⟩
        [[2, 1, 4, 0], [1, 1, 2, 171, 205]]).2 = .success ∧
    (feedAll ⟨.rtu, 0, 0, .WaitingForResponse, 0, false, [], []⟩
        [[2, 1, 4, 0], [1, 1, 2, 171, 205]]).1.pduLength = 0 ∧
    (feedAll ⟨.rtu, 0, 0, .WaitingForResponse, 0, false, [], []⟩
        [[2, 1, 4, 0], [1, 1, 2, 171, 205]]).1.pdu = [] := by
  decide

/-- C2 witness: a concrete TCP read-coils response delivered as two
fragments gives exactly the same handle and outcome as the whole frame,
and that outcome is `success` with the PDU `[1, 1, 2, 171, 205]`. -/
theorem c2_amended_witness :
    feedAll ⟨.tcp, 2, 1, .WaitingForResponse, 0, false, [], []⟩
        [[0, 2, 0, 0], [0, 5, 1, 1, 2, 171, 205]] =
      MessageHandler ⟨.tcp, 2, 1, .WaitingForResponse, 0, false, [], []⟩
        [0, 2, 0, 0, 0, 5, 1, 1, 2, 171, 205] ∧
    MessageHandler ⟨.tcp, 2, 1, .WaitingForResponse, 0, false, [], []⟩
        [0, 2, 0, 0, 0, 5, 1, 1, 2, 171, 205] =
      (⟨.tcp, 2, 2, .WaitingForResponse, 5, false, [], [1, 1, 2, 171, 205]⟩,
        .success) := by
  have hc := c2_amended ⟨.tcp, 2, 1, .WaitingForResponse, 0, false, [], []⟩
    [0, 2, 0, 0, 0, 5, 1, 1, 2, 171, 205]
    (Or.inl rfl) rfl rfl rfl (by decide) (by decide) (by decide)
  refine ⟨hc.1 [[0, 2, 0, 0], [0, 5, 1, 1, 2, 171, 205]]
    (by decide) (by decide) (by decide), ?_⟩
  rw [hc.2.1 rfl (by decide)]
  decide
